import Mathlib

/-!
A verification development for `main.go`.

`main.go` builds a `net/http` server with two routes and a signal-driven
graceful shutdown.  The development has two parts.

* **Request handling.**  The two handler closures of `main`, run against a
  response writer that records what a handler does to it (header map,
  status, body bytes) and against the process's standard output; and the
  route table of `main`, looked up with the matching rules of
  `http.ServeMux` as of Go 1.22 (`ServeHTTP`, `findHandler`,
  `matchOrRedirect`, the routing tree, `cleanPath`, `path.Clean`), behind
  the server's own handling of `OPTIONS *` and of `HEAD`.
* **Lifecycle.**  The two goroutines of `main` (the main flow and the
  serving goroutine) as a labelled transition system: every statement of
  either goroutine is one step, the operating system and the clients
  contribute the remaining events, and an execution is a list of events.

The Go standard library is not part of the repository; its behaviour is
written down here from its documented semantics, next to the statement of
`main.go` that relies on it.
-/

namespace Main

/-! ## Strings, response writer, standard output, requests

A Go string is a sequence of bytes.  It is a `String` here, one character
for each byte; the texts of `main.go` that the theorems speak about are
ASCII. -/

/-- Go `strings.HasPrefix(s, pre)`. -/
def HasPrefix (s pre : String) : Bool := pre.data.isPrefixOf s.data

/-- Go `ishex` of `net/url`. -/
def ishex (c : Char) : Bool :=
  ('0' ≤ c ∧ c ≤ '9') ∨ ('a' ≤ c ∧ c ≤ 'f') ∨ ('A' ≤ c ∧ c ≤ 'F')

/-- Go `unhex` of `net/url`. -/
def unhex (c : Char) : Nat :=
  if '0' ≤ c ∧ c ≤ '9' then c.toNat - '0'.toNat
  else if 'a' ≤ c ∧ c ≤ 'f' then c.toNat - 'a'.toNat + 10
  else if 'A' ≤ c ∧ c ≤ 'F' then c.toNat - 'A'.toNat + 10
  else 0

/-- Go `unescape` of `net/url` in the modes for paths and path segments: a
percent sign and two hex digits become the byte they name, every other byte
stays; a percent sign that is not followed by two hex digits is an error. -/
def unescape : List Char → Option (List Char)
  | [] => some []
  | [c] => if c = '%' then none else some [c]
  | [c, a] => if c = '%' then none else (unescape [a]).map (fun o => c :: o)
  | c :: a :: b :: rest =>
    if c = '%' then
      if ishex a ∧ ishex b then
        (unescape rest).map (fun o => Char.ofNat (unhex a * 16 + unhex b) :: o)
      else none
    else (unescape (a :: b :: rest)).map (fun o => c :: o)

/-- Go `pathUnescape` of `net/http`: the decoded segment, or the segment as it
is when it is not validly escaped. -/
def pathUnescape (seg : String) : String :=
  match unescape seg.data with
  | some o => ⟨o⟩
  | none => seg

/-- The header map of a response: key/value pairs, newest first. -/
structure Header where
  entries : List (String × String)
deriving DecidableEq, Repr

/-- Go `Header.Set`: the entry for `key` is replaced by the single `value`.
(The keys used here are already in canonical MIME form.) -/
def Header.Set (h : Header) (key value : String) : Header :=
  ⟨(key, value) :: h.entries.filter (fun kv => kv.1 != key)⟩

/-- Go `Header.Get`: the value stored for `key`, or the empty string. -/
def Header.Get (h : Header) (key : String) : String :=
  match h.entries.find? (fun kv => kv.1 == key) with
  | some kv => kv.2
  | none => ""

/-- The response the server sends for one request, as far as a handler
decides it: the header map, whether the status line has been written, the
status code, and the body bytes sent to the client.  `reqMethod` is the
method of the request the response answers. -/
structure ResponseWriter where
  reqMethod : String
  header : Header
  wroteHeader : Bool
  status : Nat
  body : String
deriving DecidableEq, Repr

/-- The response writer the server hands to the handler of a request with the
given method. -/
def ResponseWriter.fresh (method : String) : ResponseWriter :=
  { reqMethod := method, header := ⟨[]⟩, wroteHeader := false, status := 0, body := "" }

def StatusOK : Nat := 200
def StatusMovedPermanently : Nat := 301
def StatusBadRequest : Nat := 400
def StatusNotFound : Nat := 404

/-- Go `w.WriteHeader(code)`: the first call fixes the status code. -/
def ResponseWriter.WriteHeader (w : ResponseWriter) (code : Nat) : ResponseWriter :=
  if w.wroteHeader then w else { w with wroteHeader := true, status := code }

/-- Go `w.Write(data)`: an implicit `WriteHeader(200)` when no status has been
written; then the bytes go out as body, except that the server sends no body
in answer to a `HEAD` request and drops them. -/
def ResponseWriter.Write (w : ResponseWriter) (data : String) : ResponseWriter :=
  let w1 := w.WriteHeader StatusOK
  if w1.reqMethod = "HEAD" then w1 else { w1 with body := w1.body ++ data }

/-- The server finishes a response whose handler returned without writing a
status with `WriteHeader(200)`. -/
def ResponseWriter.finishRequest (w : ResponseWriter) : ResponseWriter :=
  w.WriteHeader StatusOK

/-- The part of the process a handler can touch: the response writer of the
request it serves, and the process's standard output. -/
structure Conn where
  w : ResponseWriter
  stdout : String
deriving DecidableEq, Repr

/-- Go `fmt.Fprintln(w, s)` for one string operand: the operand, then a
newline, written to `w`. -/
def Fprintln (c : Conn) (s : String) : Conn :=
  { c with w := c.w.Write (s ++ "\n") }

/-- Go `fmt.Println(s)` for one string operand: the operand, then a newline,
written to standard output. -/
def Println (c : Conn) (s : String) : Conn :=
  { c with stdout := c.stdout ++ (s ++ "\n") }

/-- A request that the server has read and parsed and now hands to its
handler, with the fields of `*http.Request` that the server, the mux and the
handlers look at.  `URLHost`, `Path` and `RawQuery` are `r.URL.Host`,
`r.URL.Path` and `r.URL.RawQuery`; `EscapedPath` is `r.URL.EscapedPath()`.

The last three fields say what parsing guarantees: the request target `*`
has the path `*` (for `CONNECT`, where it is read as a host, the empty
path); the path is the decoded form of the escaped path; and the escaped
path is empty, `*`, or begins with a slash. -/
structure Request where
  Method : String
  Host : String
  URLHost : String
  Path : String
  EscapedPath : String
  RawQuery : String
  RequestURI : String
  ProtoMajor : Nat
  ProtoMinor : Nat
  Header : Header
  Body : String
  star : RequestURI = "*" → Path = "*" ∨ Path = ""
  decoded : unescape EscapedPath.data = some Path.data
  rooted : EscapedPath = "" ∨ EscapedPath = "*" ∨ HasPrefix EscapedPath "/" = true

/-! ## The two handlers of `main.go` -/

/-- The raw string literal of line 22. -/
def greetingJSON : String := "\x7b\"message\": \"Hello from Dominic Ifechuku\"\x7d"

/-- The raw string literal of line 28. -/
def healthJSON : String := "\x7b\"status\": \"ok\"\x7d"

/-- Lines 20-23: the closure registered for `"/"`. -/
def rootHandler (c : Conn) (_r : Request) : Conn :=
  let c1 := { c with w := { c.w with header := c.w.header.Set "Content-Type" "application/json" } }
  Println c1 greetingJSON

/-- Lines 26-29: the closure registered for `"/health"`. -/
def healthHandler (c : Conn) (_r : Request) : Conn :=
  let c1 := { c with w := { c.w with header := c.w.header.Set "Content-Type" "application/json" } }
  Fprintln c1 healthJSON

/-! ## `http.ServeMux` (Go 1.22 and later)

Patterns are modelled as far as `main.go` uses them: a path of literal
segments, with or without a trailing slash, and no method, host or wildcard
in braces.  With such patterns the routing tree has no host and no method
level, and no node has a child for a single wildcard. -/

/-- What the mux can hand a request to: one of the two closures of `main.go`,
or a handler the library makes itself. -/
inductive Handler where
  | root
  | health
  | notFound
  | redirect (path rawQuery : String) (code : Nat)
deriving DecidableEq, Repr

/-- A segment of a pattern: a literal `s`, or the nameless multi wildcard that
a trailing slash stands for. -/
structure segment where
  s : String
  multi : Bool
deriving DecidableEq, Repr

/-- A parsed pattern: the string it was parsed from, and its segments. -/
structure pattern where
  str : String
  segments : List segment
deriving DecidableEq, Repr

/-- The loop of `parsePattern` over the path; `rest` begins with a slash.
A trailing slash gives the multi wildcard and ends the loop; every other
segment is a literal, stored decoded.  None for an empty segment, which is
outside the patterns modelled. -/
def parseSegments : Nat → List Char → Option (List segment)
  | 0, _ => none
  | _ + 1, [] => some []
  | fuel + 1, _ :: rest =>
    if rest = [] then some [{ s := "", multi := true }]
    else
      let seg := rest.takeWhile (fun x => x != '/')
      if seg = [] then none
      else
        (parseSegments fuel (rest.dropWhile (fun x => x != '/'))).map
          (fun segs => { s := pathUnescape ⟨seg⟩, multi := false } :: segs)

/-- Go `parsePattern(s)` for a pattern that is a path only; none for any other
pattern. -/
def parsePattern (s : String) : Option pattern :=
  if s.data.head? = some '/' ∧ ' ' ∉ s.data ∧ '\t' ∉ s.data ∧ '\x7b' ∉ s.data then
    (parseSegments (s.length + 1) s.data).map (fun segs => { str := s, segments := segs })
  else none

/-- A node of the routing tree below the method level: the pattern and
handler when a pattern ends here, the children by literal segment, and the
pattern and handler of the multi child when a pattern with a trailing slash
ends below here. -/
inductive routingNode where
  | mk (pat : Option (pattern × Handler)) (children : List (String × routingNode))
      (multiChild : Option (pattern × Handler))

def routingNode.empty : routingNode := routingNode.mk none [] none

/-- Go `n.findChild(key)`; the empty key names the child for a single
wildcard, which no node has. -/
def findChild (children : List (String × routingNode)) (key : String) : Option routingNode :=
  if key = "" then none
  else (children.find? (fun kv => kv.1 == key)).map (fun kv => kv.2)

/-- The child for `key` is replaced by `c`, or added. -/
def setChild (children : List (String × routingNode)) (key : String) (c : routingNode) :
    List (String × routingNode) :=
  if (children.find? (fun kv => kv.1 == key)).isSome then
    children.map (fun kv => if kv.1 == key then (key, c) else kv)
  else children ++ [(key, c)]

/-- Go `n.addSegments(segs, p, h)`. -/
def routingNode.addSegments : List segment → pattern → Handler → routingNode → routingNode
  | [], p, h, routingNode.mk _ children multiChild =>
    routingNode.mk (some (p, h)) children multiChild
  | seg :: segs, p, h, routingNode.mk pat children multiChild =>
    if seg.multi then routingNode.mk pat children (some (p, h))
    else
      let child := (findChild children seg.s).getD routingNode.empty
      routingNode.mk pat (setChild children seg.s (routingNode.addSegments segs p h child))
        multiChild

/-- The mux: the patterns registered so far and the routing tree. -/
structure ServeMux where
  patterns : List pattern
  tree : routingNode

def NewServeMux : ServeMux := { patterns := [], tree := routingNode.empty }

/-- Go `mux.Handle(pattern, handler)`; a panic is an error result.  Two of the
patterns modelled conflict exactly when they have the same segments. -/
def ServeMux.Handle (mux : ServeMux) (patstr : String) (handler : Handler) :
    Except String ServeMux :=
  if patstr = "" then Except.error "http: invalid pattern"
  else
    match parsePattern patstr with
    | none => Except.error ("parsing " ++ patstr)
    | some pat =>
      if mux.patterns.any (fun p2 => p2.segments == pat.segments) then
        Except.error ("pattern " ++ patstr ++ " conflicts")
      else
        Except.ok
          { patterns := mux.patterns ++ [pat]
            tree := mux.tree.addSegments pat.segments pat handler }

/-- Go `firstSegment(path)`: the first segment of the path, decoded, and the
rest; a lone slash is its own segment. -/
def firstSegment (path : String) : String × String :=
  if path = "/" then ("/", "")
  else
    let p := path.data.tail
    (pathUnescape ⟨p.takeWhile (fun x => x != '/')⟩, ⟨p.dropWhile (fun x => x != '/')⟩)

/-- Go `n.matchPath(path, matches)`: at the end of the path the pattern of the
node; before it the match of the child for the first segment, and when there
is none the multi child.  Every round takes at least one byte off the path,
so `path.length + 1` rounds are enough. -/
def routingNode.matchPath : Nat → routingNode → String → Option (pattern × Handler)
  | 0, _, _ => none
  | fuel + 1, routingNode.mk pat children multiChild, path =>
    if path = "" then pat
    else
      let found :=
        match findChild children (firstSegment path).1 with
        | some c => routingNode.matchPath fuel c (firstSegment path).2
        | none => none
      match found with
      | some r => some r
      | none => multiChild

/-- Go `mux.tree.match(host, method, path)`.  No pattern names a host or a
method, so the match is the match of the path. -/
def ServeMux.match_ (mux : ServeMux) (_host _method path : String) : Option (pattern × Handler) :=
  mux.tree.matchPath (path.length + 1) path

/-- Go `strings.Count(path, "/")`. -/
def countSlash (path : String) : Nat := path.data.count '/'

/-- Go `exactMatch(n, path)`: a match is exact unless the multi wildcard of the
pattern stands for a non-empty part of the path. -/
def exactMatch (n : Option (pattern × Handler)) (path : String) : Bool :=
  match n with
  | none => false
  | some (pat, _) =>
    match pat.segments.getLast? with
    | none => true
    | some last =>
      if !last.multi then true
      else if 0 < path.length ∧ path.data.getLast? ≠ some '/' then false
      else pat.segments.length == countSlash path

/-! ### `path.Clean` and `cleanPath`

The output buffer of `path.Clean` is kept reversed (its last byte first), so
that `out.w` is the length of the list and appending is a cons. -/

/-- The inner loop of the `..` case, after the first `out.w--`: bytes are
dropped while `out.w > dotdot` and the byte at `out.w` (the one dropped last)
is not a slash. -/
def backtrack (dotdot : Nat) : List Char → Char → List Char
  | [], _ => []
  | c :: out, dropped =>
    if dotdot < (c :: out).length ∧ dropped ≠ '/' then backtrack dotdot out c
    else c :: out

/-- The main loop of `path.Clean`.  `rest` is `path[r:]`; every round consumes
at least one byte of it, so `rest.length` rounds are enough. -/
def cleanLoop (rooted : Bool) : Nat → List Char → List Char → Nat → List Char
  | 0, _, out, _ => out
  | _ + 1, [], out, _ => out
  | fuel + 1, c :: t, out, dotdot =>
    if c = '/' then
      cleanLoop rooted fuel t out dotdot
    else if c = '.' ∧ (t = [] ∨ t.head? = some '/') then
      cleanLoop rooted fuel t out dotdot
    else if c = '.' ∧ t.head? = some '.' ∧ (t.tail = [] ∨ t.tail.head? = some '/') then
      if dotdot < out.length then
        match out with
        | [] => cleanLoop rooted fuel t.tail out dotdot
        | d :: out1 => cleanLoop rooted fuel t.tail (backtrack dotdot out1 d) dotdot
      else if !rooted then
        let out1 := if 0 < out.length then '/' :: out else out
        let out2 := '.' :: '.' :: out1
        cleanLoop rooted fuel t.tail out2 out2.length
      else
        cleanLoop rooted fuel t.tail out dotdot
    else
      let out1 :=
        if (rooted ∧ out.length ≠ 1) ∨ (!rooted ∧ out.length ≠ 0) then '/' :: out else out
      let elem := (c :: t).takeWhile (fun x => x != '/')
      cleanLoop rooted fuel ((c :: t).dropWhile (fun x => x != '/')) (elem.reverse ++ out1) dotdot

/-- Go `path.Clean(path)`. -/
def Clean (path : String) : String :=
  if path = "" then "."
  else
    let rooted := path.data.head? = some '/'
    let out :=
      if rooted then cleanLoop true path.length path.data.tail ['/'] 1
      else cleanLoop false path.length path.data [] 0
    if out.length = 0 then "." else ⟨out.reverse⟩

/-- Go `cleanPath(p)` of `net/http`: the canonical form of a request path. -/
def cleanPath (p : String) : String :=
  if p = "" then "/"
  else
    let p1 := if p.data.head? ≠ some '/' then "/" ++ p else p
    let np := Clean p1
    if p1.data.getLast? = some '/' ∧ np ≠ "/" then
      if p1.length = np.length + 1 ∧ HasPrefix p1 np then p1 else np ++ "/"
    else np

/-! ### Dispatch -/

/-- Go `mux.matchOrRedirect(host, method, path, u)`: the match for the path,
or, when the match is not exact, the path has no trailing slash and the
path with a trailing slash is matched exactly, the path and query to
redirect to.  `u` is the path and the query of the URL, or none for a nil
URL. -/
def ServeMux.matchOrRedirect (mux : ServeMux) (host method path : String)
    (u : Option (String × String)) : Option (pattern × Handler) × Option (String × String) :=
  let n := mux.match_ host method path
  match u with
  | none => (n, none)
  | some (uPath, uQuery) =>
    if !exactMatch n path ∧ path.data.getLast? ≠ some '/' ∧
        exactMatch (mux.match_ host method (path ++ "/")) (path ++ "/") then
      (none, some (cleanPath uPath ++ "/", uQuery))
    else (n, none)

/-- The end of `findHandler`: the handler of the node matched, or the
not-found handler.  (No pattern names a method, so no other method is
allowed where this one is not.) -/
def leafHandler (n : Option (pattern × Handler)) : Handler × String :=
  match n with
  | some (pat, h) => (h, pat.str)
  | none => (Handler.notFound, "")

/-- Go `mux.findHandler(r)`: the handler for the request and the pattern it was
registered under.  `stripHostPort` is the library function of that name. -/
def ServeMux.findHandler (mux : ServeMux) (stripHostPort : String → String) (r : Request) :
    Handler × String :=
  if r.Method = "CONNECT" then
    match (mux.matchOrRedirect r.URLHost r.Method r.EscapedPath (some (r.Path, r.RawQuery))).2 with
    | some u => (Handler.redirect u.1 u.2 StatusMovedPermanently, u.1)
    | none => leafHandler (mux.matchOrRedirect r.Host r.Method r.EscapedPath none).1
  else
    let host := stripHostPort r.Host
    let path := cleanPath r.EscapedPath
    let m := mux.matchOrRedirect host r.Method path (some (r.Path, r.RawQuery))
    match m.2 with
    | some u => (Handler.redirect u.1 u.2 StatusMovedPermanently, u.1)
    | none =>
      if path ≠ r.EscapedPath then
        (Handler.redirect path r.RawQuery StatusMovedPermanently,
          match m.1 with
          | some n => n.1.str
          | none => "")
      else leafHandler m.1

/-- Go `r.ProtoAtLeast(major, minor)`. -/
def Request.ProtoAtLeast (r : Request) (major minor : Nat) : Bool :=
  major < r.ProtoMajor || (r.ProtoMajor == major && minor ≤ r.ProtoMinor)

/-- Go `http.Error(w, error, code)`. -/
def Error (c : Conn) (error : String) (code : Nat) : Conn :=
  let h1 := c.w.header.Set "Content-Type" "text/plain; charset=utf-8"
  let h2 := h1.Set "X-Content-Type-Options" "nosniff"
  Fprintln { c with w := ({ c.w with header := h2 } : ResponseWriter).WriteHeader code } error

/-- Go `h.ServeHTTP(w, r)`.  Of a redirect only the `Location` header (as path
and query) and the status are recorded, not the short HTML note in its body. -/
def Handler.ServeHTTP (h : Handler) (c : Conn) (r : Request) : Conn :=
  match h with
  | Handler.root => rootHandler c r
  | Handler.health => healthHandler c r
  | Handler.notFound => Error c "404 page not found" StatusNotFound
  | Handler.redirect path rawQuery code =>
    let loc := if rawQuery = "" then path else path ++ "?" ++ rawQuery
    { c with w := ({ c.w with header := c.w.header.Set "Location" loc } : ResponseWriter).WriteHeader code }

/-- Go `mux.ServeHTTP(w, r)`: status 400 for the request target `*`, and the
handler found for every other request. -/
def ServeMux.ServeHTTP (mux : ServeMux) (stripHostPort : String → String) (c : Conn)
    (r : Request) : Conn :=
  if r.RequestURI = "*" then
    let h := if r.ProtoAtLeast 1 1 then c.w.header.Set "Connection" "close" else c.w.header
    { c with w := ({ c.w with header := h } : ResponseWriter).WriteHeader StatusBadRequest }
  else (mux.findHandler stripHostPort r).1.ServeHTTP c r

/-- Go `serverHandler.ServeHTTP`: the server answers `OPTIONS *` itself, with an
empty response, and hands every other request to the mux. -/
def serverHandler (mux : ServeMux) (stripHostPort : String → String) (c : Conn)
    (r : Request) : Conn :=
  if r.RequestURI = "*" ∧ r.Method = "OPTIONS" then
    { c with w := { c.w with header := c.w.header.Set "Content-Length" "0" } }
  else mux.ServeHTTP stripHostPort c r

/-- The handler that is run for the request; none when the server or the mux
answers the request target `*` without looking for a handler. -/
def ServeMux.invoked (mux : ServeMux) (stripHostPort : String → String) (r : Request) :
    Option Main.Handler :=
  if r.RequestURI = "*" then none else some (mux.findHandler stripHostPort r).1

/-! ## The route table and the server value of `main.go` -/

/-- Lines 17-29: a new mux with the root closure registered for `"/"` and the
health closure for `"/health"`. -/
def registerRoutes : Except String ServeMux :=
  (NewServeMux.Handle "/" Handler.root).bind (fun mux => mux.Handle "/health" Handler.health)

def rootPattern : pattern := { str := "/", segments := [{ s := "", multi := true }] }

def healthPattern : pattern := { str := "/health", segments := [{ s := "health", multi := false }] }

/-- The mux of `main.go`, as `registerRoutes` leaves it. -/
def mux : ServeMux :=
  { patterns := [rootPattern, healthPattern]
    tree := routingNode.mk none
      [("health", routingNode.mk (some (healthPattern, Handler.health)) [] none)]
      (some (rootPattern, Handler.root)) }

/-- One request served: the server hands the request and a fresh response
writer to its handler and finishes the response. -/
def serve (stripHostPort : String → String) (stdout : String) (r : Request) : Conn :=
  let c := serverHandler mux stripHostPort { w := ResponseWriter.fresh r.Method, stdout := stdout } r
  { c with w := c.w.finishRequest }

/-! ## Requests used as concrete inputs -/

/-- A request `method path HTTP/1.1` for the host `localhost:8080`, with no
query, no header and an empty body, for a path that needs no escaping. -/
def request (method path : String) (hd : unescape path.data = some path.data)
    (hr : path = "" ∨ path = "*" ∨ HasPrefix path "/" = true) : Request :=
  { Method := method, Host := "localhost:8080", URLHost := "", Path := path,
    EscapedPath := path, RawQuery := "", RequestURI := path, ProtoMajor := 1, ProtoMinor := 1,
    Header := ⟨[]⟩, Body := "", star := fun e => Or.inl e, decoded := hd, rooted := hr }

def getHealth : Request := request "GET" "/health" (by decide) (by decide)
def headHealth : Request := request "HEAD" "/health" (by decide) (by decide)
def getRoot : Request := request "GET" "/" (by decide) (by decide)
def getFoo : Request := request "GET" "/foo" (by decide) (by decide)
def getHealthSlash : Request := request "GET" "/health/" (by decide) (by decide)
def getDoubleSlash : Request := request "GET" "//foo" (by decide) (by decide)
def optionsStar : Request := request "OPTIONS" "*" (by decide) (by decide)

/-- The request `GET /foo%2F%2Fbar`: the path is `/foo//bar`, the escaped path
is the request target. -/
def getEscapedSlashes : Request :=
  { Method := "GET", Host := "localhost:8080", URLHost := "", Path := "/foo//bar",
    EscapedPath := "/foo%2F%2Fbar", RawQuery := "", RequestURI := "/foo%2F%2Fbar",
    ProtoMajor := 1, ProtoMinor := 1, Header := ⟨[]⟩, Body := "",
    star := by decide, decoded := by decide, rooted := by decide }

/-- The request `GET /he%61lth`: the path is `/health`. -/
def getEscapedHealth : Request :=
  { Method := "GET", Host := "localhost:8080", URLHost := "", Path := "/health",
    EscapedPath := "/he%61lth", RawQuery := "", RequestURI := "/he%61lth",
    ProtoMajor := 1, ProtoMinor := 1, Header := ⟨[]⟩, Body := "",
    star := by decide, decoded := by decide, rooted := by decide }

/-! ## The process: configuration, signals, errors, log -/

/-- Go `time.Duration`: a number of nanoseconds. -/
abbrev Duration := Int

/-- Go `time.Second`. -/
def Second : Duration := 1000000000

/-- What the operating system hands the process at start.  `main` takes no
flags and reads no environment variable. -/
structure Process where
  args : List String
  environ : List String
deriving DecidableEq, Repr

/-- The fields of `http.Server` that `main.go` sets. -/
structure Server where
  Addr : String
  Handler : ServeMux
  ReadTimeout : Duration
  WriteTimeout : Duration
  IdleTimeout : Duration

/-- Line 15: `fmt.Sprintf(":8080")`.  The format has no verb and there is no
operand, so the result is the format. -/
def addr (_p : Process) : String := ":8080"

/-- Lines 31-37: the server value. -/
def newServer (p : Process) : Server :=
  { Addr := addr p
    Handler := mux
    ReadTimeout := 5 * Second
    WriteTimeout := 10 * Second
    IdleTimeout := 60 * Second }

/-- Line 53: the timeout of the context handed to `Shutdown`. -/
def shutdownTimeout (_p : Process) : Duration := 5 * Second

inductive Signal where
  | SIGHUP
  | SIGINT
  | SIGQUIT
  | SIGTERM
deriving DecidableEq, Repr

/-- The signal `os.Interrupt` is `syscall.SIGINT`. -/
def Interrupt : Signal := Signal.SIGINT

/-- Line 48: the signals handed to `signal.Notify`. -/
def notifySignals : List Signal := [Interrupt, Signal.SIGTERM]

/-- The error values the two goroutines can see. -/
inductive Err where
  | ErrServerClosed
  | listen (cause : String)
  | DeadlineExceeded
deriving DecidableEq, Repr

/-- Go `err.Error()`. -/
def Err.Error : Err → String
  | Err.ErrServerClosed => "http: Server closed"
  | Err.listen cause => cause
  | Err.DeadlineExceeded => "context deadline exceeded"

/-- The five logging statements of `main.go`. -/
inductive LogLine where
  | serverRunning
  | serverError (err : Err)
  | signalReceived
  | shutdownFailed (err : Err)
  | shutdownComplete
deriving DecidableEq, Repr

/-- The message a logging statement prints (after the time stamp). -/
def LogLine.text : LogLine → String
  | LogLine.serverRunning => "🚀 Server running on port 8080"
  | LogLine.serverError err => "Server error: " ++ err.Error
  | LogLine.signalReceived => "Shutdown signal received..."
  | LogLine.shutdownFailed err => "Graceful shutdown failed: " ++ err.Error
  | LogLine.shutdownComplete => "Graceful shutdown complete."

/-! ## The two goroutines as a transition system -/

/-- Where the main flow stands.  Lines 15-37 only build values, so the first
statement with an effect is the `go` statement of line 39. -/
inductive MainPc where
  | spawn
  | notify
  | receive
  | logSignal
  | callShutdown
  | shutdownPoll
  | shutdownWait
  | checkErr (err : Option Err)
  | ret
deriving DecidableEq, Repr

/-- The main flow has taken a signal from the channel (it is past line 50). -/
def MainPc.afterReceive : MainPc → Bool
  | MainPc.spawn => false
  | MainPc.notify => false
  | MainPc.receive => false
  | _ => true

/-- The main flow has called `server.Shutdown` (it is past line 56's call). -/
def MainPc.calledShutdown : MainPc → Bool
  | MainPc.shutdownPoll => true
  | MainPc.shutdownWait => true
  | MainPc.checkErr _ => true
  | MainPc.ret => true
  | _ => false

/-- Where the serving goroutine (lines 39-44) stands. -/
inductive ServePc where
  | notStarted
  | logRunning
  | listen
  | serving
  | checkErr (err : Option Err)
  | done
deriving DecidableEq, Repr

/-- The state of the process.

* `stop` is the buffer of the channel of line 47, which has capacity 1;
  `received` is the value line 50 took from it.
* `inShutdown` and `listening` are the server's shutdown flag and whether its
  listener is open.
* `active` counts the requests whose handler is running, `completed` the
  requests whose response has been written in full.
* `ctx` is the timeout of the context of line 53 once it exists, `ctxDone`
  whether its deadline has passed.
* `shutdownReturned` is what `server.Shutdown` returned, once it has.
* `exit` is the exit code once the process has terminated. -/
structure State where
  proc : Process
  main : MainPc
  serve : ServePc
  subscribed : List Signal
  stop : Option Signal
  received : Option Signal
  inShutdown : Bool
  listening : Bool
  active : Nat
  completed : Nat
  ctx : Option Duration
  ctxDone : Bool
  shutdownReturned : Option (Option Err)
  log : List LogLine
  exit : Option Nat
deriving DecidableEq, Repr

/-- The process as `main` is entered. -/
def init (p : Process) : State :=
  { proc := p, main := MainPc.spawn, serve := ServePc.notStarted, subscribed := [],
    stop := none, received := none, inShutdown := false, listening := false,
    active := 0, completed := 0, ctx := none, ctxDone := false,
    shutdownReturned := none, log := [], exit := none }

/-- What can happen next.

* `main`, `serve`: the goroutine runs its next statement.
* `bind failure`: `ListenAndServe` tries to bind the address; `failure` is the
  cause when it cannot.
* `signal sig`: the operating system delivers `sig`.
* `accept`: the server accepts a request and starts its handler.
* `handlerDone`: a running handler returns and its response is complete.
* `deadline`: the deadline of the shutdown context passes.
* `pollTimer`: the poll timer inside `Shutdown` fires. -/
inductive Event where
  | main
  | serve
  | bind (failure : Option String)
  | signal (sig : Signal)
  | accept
  | handlerDone
  | deadline
  | pollTimer
deriving DecidableEq, Repr

/-- The calls `log.Printf` and `log.Println`: one more line in the log. -/
def State.logLine (s : State) (l : LogLine) : State :=
  { s with log := s.log ++ [l] }

/-- Go `log.Fatalf`: the line is logged, then `os.Exit(1)`. -/
def State.Fatalf (s : State) (l : LogLine) : State :=
  { s with log := s.log ++ [l], exit := some 1 }

/-- The next statement of the main flow (lines 39-61).

Inside `Shutdown` the library first marks the server as shutting down and
closes the listener, then polls: it returns nil as soon as no request is
active, and the context's error when the deadline passes first. -/
def stepMain (s : State) : Option State :=
  match s.main with
  | MainPc.spawn => some { s with main := MainPc.notify, serve := ServePc.logRunning }
  | MainPc.notify => some { s with main := MainPc.receive, subscribed := notifySignals }
  | MainPc.receive =>
    match s.stop with
    | some sig => some { s with main := MainPc.logSignal, stop := none, received := some sig }
    | none => none
  | MainPc.logSignal => some { s.logLine LogLine.signalReceived with main := MainPc.callShutdown }
  | MainPc.callShutdown =>
    some { s with main := MainPc.shutdownPoll, ctx := some (shutdownTimeout s.proc),
                  inShutdown := true, listening := false }
  | MainPc.shutdownPoll =>
    if s.active = 0 then
      some { s with main := MainPc.checkErr none, shutdownReturned := some none }
    else some { s with main := MainPc.shutdownWait }
  | MainPc.shutdownWait =>
    if s.ctxDone then
      some { s with main := MainPc.checkErr (some Err.DeadlineExceeded),
                    shutdownReturned := some (some Err.DeadlineExceeded) }
    else none
  | MainPc.checkErr (some err) => some (s.Fatalf (LogLine.shutdownFailed err))
  | MainPc.checkErr none => some { s.logLine LogLine.shutdownComplete with main := MainPc.ret }
  | MainPc.ret => some { s with exit := some 0 }

/-- The next statement of the serving goroutine (lines 40-43), apart from the
bind itself.  `ListenAndServe` returns `ErrServerClosed` at once when the
server is already shutting down, and out of its accept loop as soon as
`Shutdown` has closed the listener; until then the goroutine is blocked. -/
def stepServe (s : State) : Option State :=
  match s.serve with
  | ServePc.notStarted => none
  | ServePc.logRunning => some { s.logLine LogLine.serverRunning with serve := ServePc.listen }
  | ServePc.listen =>
    if s.inShutdown then some { s with serve := ServePc.checkErr (some Err.ErrServerClosed) }
    else none
  | ServePc.serving =>
    if s.inShutdown then some { s with serve := ServePc.checkErr (some Err.ErrServerClosed) }
    else none
  | ServePc.checkErr (some err) => some (s.Fatalf (LogLine.serverError err))
  | ServePc.checkErr none => some { s with serve := ServePc.done }
  | ServePc.done => none

/-- One event.  Nothing happens in a process that has exited.  A signal the
process has subscribed to is put into the channel when there is room and
dropped otherwise; what the runtime does with other signals is not part of
this development. -/
def step (s : State) (e : Event) : Option State :=
  if s.exit.isSome then none
  else
    match e with
    | Event.main => stepMain s
    | Event.serve => stepServe s
    | Event.bind failure =>
      if s.serve = ServePc.listen ∧ s.inShutdown = false then
        match failure with
        | some cause => some { s with serve := ServePc.checkErr (some (Err.listen cause)) }
        | none => some { s with serve := ServePc.serving, listening := true }
      else none
    | Event.signal sig =>
      if sig ∈ s.subscribed then
        match s.stop with
        | none => some { s with stop := some sig }
        | some _ => some s
      else none
    | Event.accept =>
      if s.serve = ServePc.serving ∧ s.listening = true then some { s with active := s.active + 1 }
      else none
    | Event.handlerDone =>
      if 0 < s.active then some { s with active := s.active - 1, completed := s.completed + 1 }
      else none
    | Event.deadline =>
      if s.ctx.isSome then some { s with ctxDone := true } else none
    | Event.pollTimer =>
      if s.main = MainPc.shutdownWait then some { s with main := MainPc.shutdownPoll } else none

/-- An execution: the events happen one after the other; none when one of
them cannot happen in the state reached. -/
def run (s : State) : List Event → Option State
  | [] => some s
  | e :: es => (step s e).bind (fun s1 => run s1 es)

/-- The lifecycle state of the specification. -/
inductive Phase where
  | Running
  | ShuttingDown
  | Terminated
deriving DecidableEq, Repr

/-- The process is terminated once it has exited, shutting down once
`Shutdown` has been called, and running before. -/
def phase (s : State) : Phase :=
  if s.exit.isSome then Phase.Terminated
  else if s.inShutdown then Phase.ShuttingDown
  else Phase.Running

def Phase.rank : Phase → Nat
  | Phase.Running => 0
  | Phase.ShuttingDown => 1
  | Phase.Terminated => 2

/-! ## Executions used as concrete inputs -/

/-- The process with no arguments and an empty environment. -/
def bare : Process := { args := [], environ := [] }

/-- Start-up with a successful bind: the goroutine is started, the signals are
subscribed, the goroutine logs and binds. -/
def startUp : List Event :=
  [Event.main, Event.main, Event.serve, Event.bind none]

/-- A clean shutdown that the serving goroutine cuts short: start-up, SIGTERM,
the main flow receives it, logs and calls `Shutdown`; `ListenAndServe` returns
`ErrServerClosed`; `Shutdown` returns nil; the goroutine runs line 42. -/
def shutdownThenFatal : List Event :=
  startUp ++ [Event.signal Signal.SIGTERM, Event.main, Event.main, Event.main,
    Event.serve, Event.main, Event.serve]

/-- The same shutdown when the main flow gets to run lines 60-61 first. -/
def shutdownThenReturn : List Event :=
  startUp ++ [Event.signal Signal.SIGTERM, Event.main, Event.main, Event.main,
    Event.serve, Event.main, Event.main, Event.main]

/-- A request is in flight when SIGINT arrives: start-up, a request is
accepted, SIGINT, the main flow receives it, logs, calls `Shutdown` and finds
the request active; `ListenAndServe` returns `ErrServerClosed` and the
goroutine runs line 42.  The deadline has not passed. -/
def signalDuringRequest : List Event :=
  startUp ++ [Event.accept, Event.signal Signal.SIGINT, Event.main, Event.main, Event.main,
    Event.main, Event.serve, Event.serve]

/-- The bind fails and no signal is ever delivered. -/
def bindFails : List Event :=
  [Event.main, Event.main, Event.serve,
    Event.bind (some "listen tcp :8080: bind: address already in use"), Event.serve]

/-- A shutdown that times out: start-up, a request is accepted, SIGTERM, the
main flow receives it, logs, calls `Shutdown` and finds the request active;
the deadline passes and `Shutdown` returns the context's error.  Only then
does the serving goroutine get to run: `ListenAndServe` returns
`ErrServerClosed` and the goroutine runs line 42, before the main flow runs
line 57. -/
def shutdownTimesOut : List Event :=
  startUp ++ [Event.accept, Event.signal Signal.SIGTERM, Event.main, Event.main, Event.main,
    Event.main, Event.deadline, Event.main, Event.serve, Event.serve]

/-- A request that outlives the grace period, on the usual schedule: start-up,
a request is accepted, SIGTERM, the main flow receives it, logs, calls
`Shutdown` and finds the request active; `ListenAndServe` returns
`ErrServerClosed` and the goroutine runs line 42 at once, long before the
deadline. -/
def requestOutlivesGrace : List Event :=
  startUp ++ [Event.accept, Event.signal Signal.SIGTERM, Event.main, Event.main, Event.main,
    Event.main, Event.serve, Event.serve]

/-- The bind fails, SIGTERM is delivered before the serving goroutine runs
line 42, and the main flow runs lines 50-61 first: it receives the signal,
logs, calls `Shutdown`, which returns nil at once, logs and returns. -/
def bindFailsThenSignal : List Event :=
  [Event.main, Event.main, Event.serve,
    Event.bind (some "listen tcp :8080: bind: address already in use"),
    Event.signal Signal.SIGTERM,
    Event.main, Event.main, Event.main, Event.main, Event.main, Event.main]

/-! ## Invariants of the transition system -/

/-- What the statements of lines 56-60 keep true. -/
structure ShutdownInv (s : State) : Prop where
  returned : ∀ e, s.shutdownReturned = some (some e) → s.main = MainPc.checkErr (some e)
  complete : LogLine.shutdownComplete ∈ s.log → s.main = MainPc.ret
  zero : s.exit = some 0 → s.main = MainPc.ret
  code : ∀ c, s.exit = some c → c = 0 ∨ c = 1
  fatal : s.exit = some 1 →
    (∃ e, s.main = MainPc.checkErr (some e) ∧ LogLine.shutdownFailed e ∈ s.log) ∨
    (∃ e, LogLine.serverError e ∈ s.log)

/-- What the statements of lines 47-56 keep true. -/
structure SignalInv (s : State) : Prop where
  subs : s.subscribed = [] ∨ s.subscribed = notifySignals
  notified : s.main ≠ MainPc.spawn → s.main ≠ MainPc.notify → s.subscribed = notifySignals
  stop : ∀ g, s.stop = some g → g ∈ notifySignals
  received : ∀ g, s.received = some g → g ∈ notifySignals
  after : s.main.afterReceive = true → s.received.isSome = true
  shut : s.inShutdown = s.main.calledShutdown
  ctx : ∀ d, s.ctx = some d → d = 5 * Second

/-- What holds as long as no signal has been delivered: the channel is empty,
the main flow has not got past line 50, and `Shutdown` has not been called. -/
structure QuietInv (s : State) : Prop where
  stop : s.stop = none
  main : s.main.afterReceive = false
  fresh : s.main = MainPc.spawn → s.serve = ServePc.notStarted
  shut : s.inShutdown = false

/-- The call of `ListenAndServe` has returned the bind error `cause`, and either line 42
is the goroutine's next statement or it has run. -/
def bindFailed (cause : String) (s : State) : Prop :=
  (s.exit = none ∧ s.serve = ServePc.checkErr (some (Err.listen cause))) ∨
  (s.exit = some 1 ∧ LogLine.serverError (Err.listen cause) ∈ s.log)

/-! ## States that the concrete executions end in -/

/-- The state `startUp` ends in: the listener is bound and the main flow waits
at line 50. -/
def started : State :=
  { proc := bare, main := MainPc.receive, serve := ServePc.serving,
    subscribed := notifySignals, stop := none, received := none, inShutdown := false,
    listening := true, active := 0, completed := 0, ctx := none, ctxDone := false,
    shutdownReturned := none, log := [LogLine.serverRunning], exit := none }

/-- The state `bindFails` ends in. -/
def bindFailedExit : State :=
  { proc := bare, main := MainPc.receive,
    serve := ServePc.checkErr (some (Err.listen "listen tcp :8080: bind: address already in use")),
    subscribed := notifySignals, stop := none, received := none, inShutdown := false,
    listening := false, active := 0, completed := 0, ctx := none, ctxDone := false,
    shutdownReturned := none,
    log := [LogLine.serverRunning,
      LogLine.serverError (Err.listen "listen tcp :8080: bind: address already in use")],
    exit := some 1 }


/-! ## Facts about `path.Clean` -/

theorem dropWhile_length_le (q : Char → Bool) (l : List Char) :
    (l.dropWhile q).length ≤ l.length := by
  induction l with
  | nil => simp
  | cons a l ih =>
    simp only [List.dropWhile]
    split
    · exact Nat.le_succ_of_le ih
    · exact Nat.le_refl _

/-- The fuel of `cleanLoop` does not matter once it covers the bytes left: the
loop always runs to the end of the path. -/
theorem cleanLoop_fuel (rooted : Bool) :
    ∀ (f1 f2 : Nat) (rest out : List Char) (dotdot : Nat),
      rest.length ≤ f1 → rest.length ≤ f2 →
      cleanLoop rooted f1 rest out dotdot = cleanLoop rooted f2 rest out dotdot := by
  intro f1
  induction f1 with
  | zero =>
    intro f2 rest out dotdot h1 _
    have : rest = [] := List.length_eq_zero.mp (Nat.le_zero.mp h1)
    subst this
    cases f2 <;> simp [cleanLoop]
  | succ n ih =>
    intro f2 rest out dotdot h1 h2
    cases rest with
    | nil => cases f2 <;> simp [cleanLoop]
    | cons c t =>
      cases f2 with
      | zero => simp at h2
      | succ m =>
        have ht1 : t.length ≤ n := by simpa using h1
        have ht2 : t.length ≤ m := by simpa using h2
        have htt1 : t.tail.length ≤ n := by
          have := List.length_tail t
          omega
        have htt2 : t.tail.length ≤ m := by
          have := List.length_tail t
          omega
        simp only [cleanLoop]
        split
        · exact ih m t out dotdot ht1 ht2
        · split
          · exact ih m t out dotdot ht1 ht2
          · split
            · split
              · split
                · exact ih m _ _ _ htt1 htt2
                · exact ih m _ _ _ htt1 htt2
              · split
                · exact ih m _ _ _ htt1 htt2
                · exact ih m _ _ _ htt1 htt2
            · rename_i hc _ _
              have hd : (c :: t).dropWhile (fun x => x != '/') = t.dropWhile (fun x => x != '/') := by
                have hne : (c != '/') = true := by simpa using hc
                simp only [List.dropWhile, hne]
              have hl := dropWhile_length_le (fun x => x != '/') t
              rw [hd]
              exact ih m _ _ _ (by omega) (by omega)

/-! ## Facts about percent-decoding -/

theorem unescape_slash (l : List Char) :
    unescape ('/' :: l) = (unescape l).map (fun o => '/' :: o) := by
  cases l with
  | nil => rfl
  | cons a t =>
    cases t with
    | nil =>
      have h : ('/' : Char) ≠ '%' := by decide
      simp [unescape, h]
    | cons b rest =>
      have h : ('/' : Char) ≠ '%' := by decide
      simp [unescape, h]

theorem unescape_keeps_slash :
    ∀ (n : Nat) (l o : List Char), l.length ≤ n → unescape l = some o → '/' ∈ l → '/' ∈ o := by
  intro n
  induction n with
  | zero =>
    intro l o hl _ hm
    have : l = [] := List.length_eq_zero.mp (Nat.le_zero.mp hl)
    subst this
    cases hm
  | succ n ih =>
    intro l o hl hu hm
    match l, hl, hu, hm with
    | [], _, _, hm => cases hm
    | [c], _, hu, hm =>
      simp only [unescape] at hu
      split at hu
      · cases hu
      · simp at hu
        subst hu
        exact hm
    | [c, a], hl, hu, hm =>
      simp only [unescape] at hu
      split at hu
      · cases hu
      · split at hu
        · simp at hu
        · simp at hu
          subst hu
          exact hm
    | c :: a :: b :: rest, hl, hu, hm =>
      simp only [unescape] at hu
      split at hu
      · rename_i hc
        split at hu
        · rename_i hab
          cases hr : unescape rest with
          | none => simp [hr] at hu
          | some o1 =>
            simp [hr] at hu
            subst hu
            have ha : a ≠ '/' := by
              intro h; rw [h] at hab; exact absurd hab.1 (by decide)
            have hb : b ≠ '/' := by
              intro h; rw [h] at hab; exact absurd hab.2 (by decide)
            have hc1 : c ≠ '/' := by
              intro h; rw [h] at hc; exact absurd hc (by decide)
            have hm1 : '/' ∈ rest := by
              simp only [List.mem_cons] at hm
              rcases hm with h | h | h | h
              · exact absurd h.symm hc1
              · exact absurd h.symm ha
              · exact absurd h.symm hb
              · exact h
            have hlen : rest.length ≤ n := by
              simp only [List.length_cons] at hl
              omega
            exact List.mem_cons_of_mem _ (ih rest o1 hlen hr hm1)
        · cases hu
      · cases hr : unescape (a :: b :: rest) with
        | none => simp [hr] at hu
        | some o1 =>
          simp [hr] at hu
          subst hu
          rcases List.mem_cons.mp hm with h | h
          · rw [← h]; exact List.mem_cons_self _ _
          · have hlen : (a :: b :: rest).length ≤ n := by
              simp only [List.length_cons] at hl ⊢
              omega
            exact List.mem_cons_of_mem _ (ih _ o1 hlen hr h)

/-! ## Facts about `cleanPath` -/

theorem takeWhile_no_slash (seg : List Char) (h : '/' ∉ seg) :
    seg.takeWhile (fun x => x != '/') = seg := by
  rw [List.takeWhile_eq_self_iff]
  intro x hx
  have : x ≠ '/' := fun e => h (e ▸ hx)
  simpa using this

theorem dropWhile_no_slash (seg : List Char) (h : '/' ∉ seg) :
    seg.dropWhile (fun x => x != '/') = [] := by
  rw [List.dropWhile_eq_nil_iff]
  intro x hx
  have : x ≠ '/' := fun e => h (e ▸ hx)
  simpa using this

/-- A path of one segment that is neither empty nor `.` nor `..` is in
canonical form. -/
theorem cleanPath_single (seg : List Char) (h0 : seg ≠ []) (hs : '/' ∉ seg)
    (h1 : seg ≠ ['.']) (h2 : seg ≠ ['.', '.']) :
    cleanPath ⟨'/' :: seg⟩ = ⟨'/' :: seg⟩ := by
  cases seg with
  | nil => exact absurd rfl h0
  | cons c t =>
    have hc : c ≠ '/' := fun e => hs (by simp [e])
    have ht : '/' ∉ t := fun e => hs (List.mem_cons_of_mem _ e)
    have hne : (String.mk ('/' :: c :: t)) ≠ "" := by
      intro h
      have := congrArg String.data h
      simp at this
    have hhead : ∀ l : List Char, '/' ∉ l → l.head? ≠ some '/' := by
      intro l hl h
      cases l with
      | nil => cases h
      | cons a l => simp at h; exact hl (by simp [h])
    have c2 : ¬ (c = '.' ∧ (t = [] ∨ t.head? = some '/')) := by
      rintro ⟨e, h | h⟩
      · exact h1 (by rw [e, h])
      · exact hhead t ht h
    have c3 : ¬ (c = '.' ∧ t.head? = some '.' ∧ (t.tail = [] ∨ t.tail.head? = some '/')) := by
      rintro ⟨e, h, h3 | h3⟩
      · cases t with
        | nil => cases h
        | cons a t1 =>
          simp at h h3
          exact h2 (by rw [e, h, h3])
      · have : '/' ∉ t.tail := fun e => ht (List.mem_of_mem_tail e)
        exact hhead _ this h3
    have hloop : cleanLoop true (String.length ⟨'/' :: c :: t⟩) (c :: t) ['/'] 1
        = (c :: t).reverse ++ ['/'] := by
      have hl : String.length ⟨'/' :: c :: t⟩ = t.length + 1 + 1 := rfl
      rw [hl]
      simp only [cleanLoop, hc, c2, c3, if_false]
      rw [takeWhile_no_slash (c :: t) hs, dropWhile_no_slash (c :: t) hs]
      simp [cleanLoop]
    have hClean : Clean ⟨'/' :: c :: t⟩ = ⟨'/' :: c :: t⟩ := by
      unfold Clean
      simp only [hne, if_false]
      simp only [List.head?_cons, List.tail_cons, if_true]
      rw [hloop]
      simp
    have hlast : (c :: t).getLast? ≠ some '/' := by
      intro h
      have := List.mem_of_getLast?_eq_some h
      exact hs this
    unfold cleanPath
    simp only [hne, if_false]
    simp only [List.head?_cons, ne_eq, not_true_eq_false, if_false, hClean]
    have hl2 : ('/' :: c :: t).getLast? = (c :: t).getLast? := by
      simp [List.getLast?_cons_cons]
    simp [hl2, hlast]

/-! ## Facts about the route table -/

theorem registerRoutes_eq : registerRoutes = Except.ok mux := rfl

theorem string_length_pos (s : String) (h : s ≠ "") : ∃ k, s.length = k + 1 := by
  obtain ⟨l⟩ := s
  cases l with
  | nil => exact absurd rfl h
  | cons a t => exact ⟨t.length, rfl⟩

theorem match_mux (host method path : String) :
    mux.match_ host method path =
      if path = "" then none
      else if firstSegment path = ("health", "") then some (healthPattern, Handler.health)
      else some (rootPattern, Handler.root) := by
  unfold ServeMux.match_ mux
  by_cases hp : path = ""
  · subst hp
    rfl
  · obtain ⟨k, hk⟩ := string_length_pos path hp
    rw [hk]
    simp only [routingNode.matchPath, hp, if_false]
    by_cases h1 : (firstSegment path).1 = "health"
    · have hf : findChild
          [("health", routingNode.mk (some (healthPattern, Handler.health)) [] none)]
          (firstSegment path).1
          = some (routingNode.mk (some (healthPattern, Handler.health)) [] none) := by
        rw [h1]; rfl
      rw [hf]
      by_cases h2 : (firstSegment path).2 = ""
      · have hfs : firstSegment path = ("health", "") := Prod.ext h1 h2
        simp [routingNode.matchPath, h2, hfs]
      · have hfs : firstSegment path ≠ ("health", "") := fun h => h2 (by rw [h])
        simp [routingNode.matchPath, h2, hfs, findChild]
    · have hf : findChild
          [("health", routingNode.mk (some (healthPattern, Handler.health)) [] none)]
          (firstSegment path).1 = none := by
        unfold findChild
        by_cases h0 : (firstSegment path).1 = ""
        · simp [h0]
        · have : ("health" == (firstSegment path).1) = false := by
            simpa using fun h => h1 h.symm
          simp [h0, List.find?, this]
      have hfs : firstSegment path ≠ ("health", "") := fun h => h1 (by rw [h])
      simp [hf, hfs]

theorem firstSegment_rest_length (path : String) (h : path ≠ "") :
    (firstSegment path).2.length < path.length := by
  unfold firstSegment
  by_cases h1 : path = "/"
  · subst h1
    decide
  · simp only [h1, if_false]
    obtain ⟨l⟩ := path
    cases l with
    | nil => exact absurd rfl h
    | cons a t =>
      have := dropWhile_length_le (fun x => x != '/') t
      show (List.dropWhile (fun x => x != '/') t).length < (a :: t).length
      simp only [List.length_cons]
      omega

/-- The fuel of `matchPath` does not matter once it exceeds the length of the
path: the match always runs to the end of the path. -/
theorem matchPath_fuel :
    ∀ (f1 f2 : Nat) (n : routingNode) (path : String),
      path.length < f1 → path.length < f2 →
      routingNode.matchPath f1 n path = routingNode.matchPath f2 n path := by
  intro f1
  induction f1 with
  | zero =>
    intro f2 n path h1 _
    exact absurd h1 (Nat.not_lt_zero _)
  | succ k ih =>
    intro f2 n path h1 h2
    cases f2 with
    | zero => exact absurd h2 (Nat.not_lt_zero _)
    | succ m =>
      obtain ⟨pat, children, multiChild⟩ := n
      simp only [routingNode.matchPath]
      by_cases hp : path = ""
      · simp [hp]
      · simp only [hp, if_false]
        have hl := firstSegment_rest_length path hp
        cases hc : findChild children (firstSegment path).1 with
        | none => rfl
        | some c =>
          simp only
          rw [ih m c (firstSegment path).2 (by omega) (by omega)]

theorem hasPrefix_slash (p : String) :
    HasPrefix p "/" = true ↔ ∃ seg, p.data = '/' :: seg := by
  unfold HasPrefix
  obtain ⟨l⟩ := p
  cases l with
  | nil => simp [List.isPrefixOf]
  | cons a t =>
    constructor
    · intro h
      have : a = '/' := by
        simp [List.isPrefixOf] at h
        exact h.symm
      exact ⟨t, by simp [this]⟩
    · rintro ⟨seg, h⟩
      simp at h
      simp [List.isPrefixOf, h.1]

theorem dropWhile_append_slash (l : List Char) :
    (l ++ ['/']).dropWhile (fun x => x != '/') ≠ [] := by
  induction l with
  | nil => simp [List.dropWhile]
  | cons a l ih =>
    simp only [List.cons_append, List.dropWhile]
    split
    · exact ih
    · simp

theorem firstSegment_append_slash (path : String) :
    firstSegment (path ++ "/") ≠ ("health", "") := by
  unfold firstSegment
  by_cases h : path ++ "/" = "/"
  · simp only [h, if_true]
    decide
  · simp only [h, if_false]
    intro he
    have h2 := congrArg (fun x => x.2.data) he
    simp only at h2
    obtain ⟨l⟩ := path
    cases l with
    | nil => exact h rfl
    | cons a t =>
      have : (String.mk (a :: t) ++ "/").data.tail = t ++ ['/'] := rfl
      rw [this] at h2
      exact dropWhile_append_slash t h2

theorem append_slash_ne_empty (path : String) : path ++ "/" ≠ "" := by
  intro h
  have := congrArg String.length h
  simp at this
  exact absurd this.2 (by decide)

/-- The path with a slash added is matched by the pattern `/`, and exactly so
when the path has no slash of its own. -/
theorem exactMatch_append_slash (host method path : String) :
    exactMatch (mux.match_ host method (path ++ "/")) (path ++ "/")
      = decide ('/' ∉ path.data) := by
  rw [match_mux]
  simp only [append_slash_ne_empty, firstSegment_append_slash, if_false]
  unfold exactMatch rootPattern countSlash
  simp
  by_cases h : '/' ∈ path.data
  · have : 0 < List.count '/' path.data := List.count_pos_iff.mpr h
    simp [h]
    omega
  · have : List.count '/' path.data = 0 := List.count_eq_zero.mpr h
    simp [h, this]

theorem matchOrRedirect_rooted (host method path : String) (u : Option (String × String))
    (h : '/' ∈ path.data) :
    mux.matchOrRedirect host method path u = (mux.match_ host method path, none) := by
  unfold ServeMux.matchOrRedirect
  cases u with
  | none => rfl
  | some v =>
    obtain ⟨a, b⟩ := v
    simp [exactMatch_append_slash, h]

theorem matchOrRedirect_empty (host method : String) (v : String × String) :
    (mux.matchOrRedirect host method "" (some v)).2 = some (cleanPath v.1 ++ "/", v.2) := by
  obtain ⟨a, b⟩ := v
  rfl

theorem matchOrRedirect_star (host method : String) (v : String × String) :
    (mux.matchOrRedirect host method "*" (some v)).2 = some (cleanPath v.1 ++ "/", v.2) := by
  obtain ⟨a, b⟩ := v
  rfl

/-- The handler the mux finds for a request whose escaped path begins with a
slash and is in canonical form, or whose method is `CONNECT`. -/
theorem findHandler_rooted (strip : String → String) (r : Request)
    (hr : HasPrefix r.EscapedPath "/" = true)
    (hc : r.Method = "CONNECT" ∨ cleanPath r.EscapedPath = r.EscapedPath) :
    (mux.findHandler strip r).1 =
      if firstSegment r.EscapedPath = ("health", "") then Handler.health else Handler.root := by
  obtain ⟨seg, hseg⟩ := (hasPrefix_slash _).mp hr
  have hm : '/' ∈ r.EscapedPath.data := by rw [hseg]; simp
  have hne : r.EscapedPath ≠ "" := by
    intro h; rw [h] at hseg; cases hseg
  unfold ServeMux.findHandler
  by_cases hcon : r.Method = "CONNECT"
  · simp only [hcon, if_true, matchOrRedirect_rooted _ _ _ _ hm, match_mux, hne, if_false]
    by_cases hh : firstSegment r.EscapedPath = ("health", "")
    · simp [hh, leafHandler]
    · simp [hh, leafHandler]
  · have hcl : cleanPath r.EscapedPath = r.EscapedPath := by
      rcases hc with h | h
      · exact absurd h hcon
      · exact h
    simp only [hcon, if_false, hcl, matchOrRedirect_rooted _ _ _ _ hm, match_mux, hne, ne_eq,
      not_true_eq_false]
    by_cases hh : firstSegment r.EscapedPath = ("health", "")
    · simp [hh, leafHandler]
    · simp [hh, leafHandler]

/-- The mux answers every other request with a redirect. -/
theorem findHandler_redirect (strip : String → String) (r : Request)
    (h : ¬ (HasPrefix r.EscapedPath "/" = true ∧
      (r.Method = "CONNECT" ∨ cleanPath r.EscapedPath = r.EscapedPath))) :
    ∃ path query code, (mux.findHandler strip r).1 = Handler.redirect path query code := by
  unfold ServeMux.findHandler
  by_cases hcon : r.Method = "CONNECT"
  · have hnr : ¬ HasPrefix r.EscapedPath "/" = true := fun hr => h ⟨hr, Or.inl hcon⟩
    simp only [hcon, if_true]
    rcases r.rooted with he | he | he
    · rw [he, matchOrRedirect_empty]
      exact ⟨_, _, _, rfl⟩
    · rw [he, matchOrRedirect_star]
      exact ⟨_, _, _, rfl⟩
    · exact absurd he hnr
  · simp only [hcon, if_false]
    have hcl : cleanPath r.EscapedPath ≠ r.EscapedPath := by
      intro hcl
      rcases r.rooted with he | he | he
      · rw [he] at hcl; revert hcl; decide
      · rw [he] at hcl; revert hcl; decide
      · exact h ⟨he, Or.inr hcl⟩
    cases hm : (mux.matchOrRedirect (strip r.Host) r.Method (cleanPath r.EscapedPath)
        (some (r.Path, r.RawQuery))).2 with
    | some u => exact ⟨_, _, _, rfl⟩
    | none =>
      simp only [hcl, ne_eq, not_false_eq_true, if_true]
      exact ⟨_, _, _, rfl⟩

theorem no_slash_of_dropWhile_nil (l : List Char)
    (h : l.dropWhile (fun x => x != '/') = []) : '/' ∉ l := by
  intro hm
  rw [List.dropWhile_eq_nil_iff] at h
  have := h '/' hm
  simp at this

/-- The escaped paths that the pattern `/health` matches are those of the
decoded path `/health`. -/
theorem health_of_firstSegment (p P : String) (hd : unescape p.data = some P.data)
    (hr : HasPrefix p "/" = true) (hf : firstSegment p = ("health", "")) : P = "/health" := by
  obtain ⟨seg, hseg⟩ := (hasPrefix_slash p).mp hr
  by_cases h1 : p = "/"
  · rw [h1] at hf
    exact absurd hf (by decide)
  · unfold firstSegment at hf
    simp only [h1, if_false, hseg, List.tail_cons] at hf
    have hf1 := congrArg Prod.fst hf
    have hf2 := congrArg (fun x => x.2.data) hf
    simp only at hf1 hf2
    have hns : '/' ∉ seg := no_slash_of_dropWhile_nil seg hf2
    rw [takeWhile_no_slash seg hns] at hf1
    rw [hseg, unescape_slash] at hd
    cases hu : unescape seg with
    | none => simp [hu] at hd
    | some o =>
      simp only [hu, Option.map_some', Option.some.injEq] at hd
      unfold pathUnescape at hf1
      simp only [hu] at hf1
      have ho : o = "health".data := congrArg String.data hf1
      apply String.ext
      rw [← hd, ho]

theorem firstSegment_of_health (p : String) (hd : unescape p.data = some "/health".data)
    (hr : p = "" ∨ p = "*" ∨ HasPrefix p "/" = true) :
    HasPrefix p "/" = true ∧ firstSegment p = ("health", "") ∧ cleanPath p = p := by
  have hroot : HasPrefix p "/" = true := by
    rcases hr with h | h | h
    · rw [h] at hd; exact absurd hd (by decide)
    · rw [h] at hd; exact absurd hd (by decide)
    · exact h
  obtain ⟨seg, hseg⟩ := (hasPrefix_slash p).mp hroot
  have hp : p = ⟨'/' :: seg⟩ := String.ext hseg
  rw [hseg, unescape_slash] at hd
  cases hu : unescape seg with
  | none => simp [hu] at hd
  | some o =>
    simp only [hu, Option.map_some', Option.some.injEq] at hd
    have ho : o = "health".data := by
      have : '/' :: o = '/' :: "health".data := hd
      exact List.tail_eq_of_cons_eq this
    rw [ho] at hu
    have hns : '/' ∉ seg := by
      intro hm
      exact absurd (unescape_keeps_slash seg.length seg _ (Nat.le_refl _) hu hm) (by decide)
    have h0 : seg ≠ [] := by
      intro h; rw [h] at hu; exact absurd hu (by decide)
    have h1 : seg ≠ ['.'] := by
      intro h; rw [h] at hu; exact absurd hu (by decide)
    have h2 : seg ≠ ['.', '.'] := by
      intro h; rw [h] at hu; exact absurd hu (by decide)
    refine ⟨hroot, ?_, ?_⟩
    · unfold firstSegment
      have hne : p ≠ "/" := by
        intro h
        rw [h] at hseg
        have : seg = [] := by
          have h3 : ['/'] = '/' :: seg := hseg
          exact (List.tail_eq_of_cons_eq h3).symm
        exact h0 this
      simp only [hne, if_false, hseg, List.tail_cons]
      rw [takeWhile_no_slash seg hns, dropWhile_no_slash seg hns]
      unfold pathUnescape
      simp only [hu]
    · rw [hp]
      exact cleanPath_single seg h0 hns h1 h2

theorem rooted_path (r : Request) (h : HasPrefix r.EscapedPath "/" = true) :
    HasPrefix r.Path "/" = true := by
  obtain ⟨seg, hseg⟩ := (hasPrefix_slash _).mp h
  have hd := r.decoded
  rw [hseg, unescape_slash] at hd
  cases hu : unescape seg with
  | none => simp [hu] at hd
  | some o =>
    simp only [hu, Option.map_some', Option.some.injEq] at hd
    exact (hasPrefix_slash _).mpr ⟨o, hd.symm⟩

theorem requestURI_ne_star (r : Request) (h : HasPrefix r.Path "/" = true) :
    r.RequestURI ≠ "*" := by
  intro e
  rcases r.star e with h1 | h1
  · rw [h1] at h; exact absurd h (by decide)
  · rw [h1] at h; exact absurd h (by decide)

theorem findHandler_health (strip : String → String) (r : Request) (h : r.Path = "/health") :
    (mux.findHandler strip r).1 = Handler.health := by
  have hd := r.decoded
  rw [h] at hd
  obtain ⟨hr, hf, hc⟩ := firstSegment_of_health r.EscapedPath hd r.rooted
  rw [findHandler_rooted strip r hr (Or.inr hc)]
  simp [hf]

/-! ## The handlers' responses -/

/-- C1, as stated, fails for `GET /health`: the status is 200 and the content
type is `application/json`, but the body is not the bare byte string
`{"status": "ok"}`, because `Fprintln` ends it with a newline. -/
theorem health_body_is_not_the_bare_json :
    ¬ ((serve id "" getHealth).w.status = 200 ∧
       (serve id "" getHealth).w.header.Get "Content-Type" = "application/json" ∧
       (serve id "" getHealth).w.body = healthJSON) := by
  decide

/-- C1, amended: for every request that the server hands to its handler and
whose path is `/health` (any method, host, query, headers and body), the
response has status 200 and the `Content-Type` header `application/json`, and
nothing goes to standard output; for every method other than `HEAD` the body
is the byte string `{"status": "ok"}` followed by exactly one newline byte,
and for `HEAD` no body is sent. -/
theorem health_response (strip : String → String) (stdout : String) (r : Request)
    (h : r.Path = "/health") :
    (serve strip stdout r).w.status = 200 ∧
    (serve strip stdout r).w.header.Get "Content-Type" = "application/json" ∧
    (serve strip stdout r).stdout = stdout ∧
    (serve strip stdout r).w.body = if r.Method = "HEAD" then "" else healthJSON ++ "\n" := by
  have hu : r.RequestURI ≠ "*" := requestURI_ne_star r (by rw [h]; decide)
  have hh := findHandler_health strip r h
  by_cases hm : r.Method = "HEAD"
  · simp [serve, serverHandler, ServeMux.ServeHTTP, hu, hh, Handler.ServeHTTP, healthHandler,
      Fprintln, ResponseWriter.Write, ResponseWriter.WriteHeader, ResponseWriter.finishRequest,
      ResponseWriter.fresh, Header.Get, Header.Set, StatusOK, hm]
  · simp [serve, serverHandler, ServeMux.ServeHTTP, hu, hh, Handler.ServeHTTP, healthHandler,
      Fprintln, ResponseWriter.Write, ResponseWriter.WriteHeader, ResponseWriter.finishRequest,
      ResponseWriter.fresh, Header.Get, Header.Set, StatusOK, hm]

theorem health_response_witness :
    getHealth.Path = "/health" ∧
    (serve id "" getHealth).w.status = 200 ∧
    (serve id "" getHealth).w.header.Get "Content-Type" = "application/json" ∧
    (serve id "" getHealth).stdout = "" ∧
    (serve id "" getHealth).w.body =
      if getHealth.Method = "HEAD" then "" else healthJSON ++ "\n" :=
  ⟨rfl, health_response id "" getHealth rfl⟩

/-- The two cases of the body at concrete requests: `GET /health` and
`GET /he%61lth` get the JSON line, `HEAD /health` gets the same status and
content type and no body. -/
theorem health_bodies :
    (serve id "" getHealth).w.body = healthJSON ++ "\n" ∧
    (serve id "" getEscapedHealth).w.body = healthJSON ++ "\n" ∧
    (serve id "" headHealth).w.status = 200 ∧
    (serve id "" headHealth).w.header.Get "Content-Type" = "application/json" ∧
    (serve id "" headHealth).w.body = "" := by
  decide

/-- C2 at `GET /`: the response has status 200 and the JSON content type, but
its body is empty; the greeting went to standard output instead. -/
theorem root_response_body_is_empty :
    (serve id "" getRoot).w.status = 200 ∧
    (serve id "" getRoot).w.body = "" ∧
    (serve id "" getRoot).w.body ≠ greetingJSON ∧
    (serve id "" getRoot).stdout = greetingJSON ++ "\n" := by
  decide

/-- C10: whatever the request and the state of the response writer, the root
handler sets the `Content-Type` header to `application/json`, appends the
greeting line and a newline to standard output, and writes nothing to the
response: the body and the status line are as they were. -/
theorem root_handler_effect (c : Conn) (r : Request) :
    (Handler.root.ServeHTTP c r).w.header.Get "Content-Type" = "application/json" ∧
    (Handler.root.ServeHTTP c r).stdout = c.stdout ++ (greetingJSON ++ "\n") ∧
    (Handler.root.ServeHTTP c r).w.body = c.w.body ∧
    (Handler.root.ServeHTTP c r).w.wroteHeader = c.w.wroteHeader ∧
    (Handler.root.ServeHTTP c r).w.status = c.w.status := by
  simp [Handler.ServeHTTP, rootHandler, Println, Header.Get, Header.Set]

/-! ## Dispatch -/

/-- C3, as stated, fails for `GET /foo` and `GET /health/`: both are handled
by the root handler, although neither path is `/`. -/
theorem root_handler_serves_other_paths :
    ¬ ((mux.invoked id getFoo = some Handler.root ↔ getFoo.Path = "/") ∧
       (mux.invoked id getHealthSlash = some Handler.root ↔ getHealthSlash.Path = "/")) := by
  decide

/-- Dispatch at concrete requests: `/`, `/foo`, `/health/` and `/foo%2F%2Fbar`
run the root handler, `/health` and `/he%61lth` the health handler; `//foo`
is redirected to `/foo` and `OPTIONS *` is answered by the server with
status 200, so that neither handler runs. -/
theorem dispatch_examples :
    mux.invoked id getRoot = some Handler.root ∧
    mux.invoked id getFoo = some Handler.root ∧
    mux.invoked id getHealthSlash = some Handler.root ∧
    mux.invoked id getEscapedSlashes = some Handler.root ∧
    mux.invoked id getHealth = some Handler.health ∧
    mux.invoked id getEscapedHealth = some Handler.health ∧
    mux.invoked id getDoubleSlash = some (Handler.redirect "/foo" "" 301) ∧
    mux.invoked id optionsStar = none ∧
    (serve id "" optionsStar).w.status = 200 ∧
    (serve id "" optionsStar).w.body = "" ∧
    (serve id "" optionsStar).stdout = "" := by
  decide

theorem rooted_escaped (r : Request) (h : HasPrefix r.Path "/" = true) :
    HasPrefix r.EscapedPath "/" = true := by
  have hd := r.decoded
  rcases r.rooted with he | he | he
  · rw [he] at hd
    have hp : r.Path = "" := String.ext (by simpa [unescape] using hd.symm)
    rw [hp] at h
    exact absurd h (by decide)
  · rw [he] at hd
    have hp : r.Path = "*" := String.ext (by
      have h1 : unescape "*".data = some ['*'] := by decide
      rw [h1] at hd
      simpa using hd.symm)
    rw [hp] at h
    exact absurd h (by decide)
  · exact he

/-- C3, amended: among the requests that the server hands to its handler,

* the health handler is run exactly for those whose path is `/health`;
* the root handler is run exactly for those whose path is not `/health` and
  begins with a slash and, when the method is not `CONNECT`, whose escaped
  path (the path as the request target spells it) is in canonical form, so
  also for `/foo` and `/health/`;
* for every other request neither of the two handlers is run. -/
theorem dispatch_by_pattern (strip : String → String) (r : Request) :
    (mux.invoked strip r = some Handler.health ↔ r.Path = "/health") ∧
    (mux.invoked strip r = some Handler.root ↔
      (r.Path ≠ "/health" ∧ HasPrefix r.Path "/" = true ∧
        (r.Method = "CONNECT" ∨ cleanPath r.EscapedPath = r.EscapedPath))) ∧
    ((mux.invoked strip r ≠ some Handler.health ∧ mux.invoked strip r ≠ some Handler.root) ↔
      (r.Path ≠ "/health" ∧
        ¬ (HasPrefix r.Path "/" = true ∧
          (r.Method = "CONNECT" ∨ cleanPath r.EscapedPath = r.EscapedPath)))) := by
  have key : ∀ h : Handler, (h = Handler.health ∨ h = Handler.root) →
      mux.invoked strip r = some h →
      HasPrefix r.EscapedPath "/" = true ∧
        (r.Method = "CONNECT" ∨ cleanPath r.EscapedPath = r.EscapedPath) ∧
        (if firstSegment r.EscapedPath = ("health", "") then Handler.health else Handler.root)
          = h := by
    intro h hh hi
    unfold ServeMux.invoked at hi
    by_cases hu : r.RequestURI = "*"
    · simp [hu] at hi
    · simp only [hu, if_false, Option.some.injEq] at hi
      by_cases hc : HasPrefix r.EscapedPath "/" = true ∧
          (r.Method = "CONNECT" ∨ cleanPath r.EscapedPath = r.EscapedPath)
      · rw [findHandler_rooted strip r hc.1 hc.2] at hi
        exact ⟨hc.1, hc.2, hi⟩
      · obtain ⟨a, b, c, hred⟩ := findHandler_redirect strip r hc
        rw [hred] at hi
        rcases hh with hh | hh <;> rw [hh] at hi <;> cases hi
  have hhealth : mux.invoked strip r = some Handler.health ↔ r.Path = "/health" := by
    constructor
    · intro hi
      obtain ⟨hr, _, hf⟩ := key _ (Or.inl rfl) hi
      by_cases hfs : firstSegment r.EscapedPath = ("health", "")
      · exact health_of_firstSegment _ _ r.decoded hr hfs
      · simp [hfs] at hf
    · intro hp
      have hu : r.RequestURI ≠ "*" := requestURI_ne_star r (by rw [hp]; decide)
      unfold ServeMux.invoked
      simp [hu, findHandler_health strip r hp]
  have hroot : mux.invoked strip r = some Handler.root ↔
      (r.Path ≠ "/health" ∧ HasPrefix r.Path "/" = true ∧
        (r.Method = "CONNECT" ∨ cleanPath r.EscapedPath = r.EscapedPath)) := by
    constructor
    · intro hi
      obtain ⟨hr, hc, hf⟩ := key _ (Or.inr rfl) hi
      refine ⟨?_, rooted_path r hr, hc⟩
      intro hp
      have := hhealth.mpr hp
      rw [hi] at this
      cases this
    · rintro ⟨hp, hr, hc⟩
      have hu : r.RequestURI ≠ "*" := requestURI_ne_star r hr
      have hre := rooted_escaped r hr
      have hfs : firstSegment r.EscapedPath ≠ ("health", "") :=
        fun hfs => hp (health_of_firstSegment _ _ r.decoded hre hfs)
      unfold ServeMux.invoked
      simp [hu, findHandler_rooted strip r hre hc, hfs]
  refine ⟨hhealth, hroot, ?_⟩
  constructor
  · rintro ⟨h1, h2⟩
    have hp : r.Path ≠ "/health" := fun hp => h1 (hhealth.mpr hp)
    exact ⟨hp, fun hc => h2 (hroot.mpr ⟨hp, hc.1, hc.2⟩)⟩
  · rintro ⟨hp, hn⟩
    constructor
    · intro hi
      exact hp (hhealth.mp hi)
    · intro hi
      have := hroot.mp hi
      exact hn ⟨this.2.1, this.2.2⟩

/-! ## Executions -/

theorem step_alive (s s1 : State) (e : Event) (h : step s e = some s1) : s.exit = none := by
  unfold step at h
  cases hx : s.exit with
  | none => rfl
  | some c => simp [hx] at h

/-- A property that holds at the start and is kept by every event holds at the
end of every execution. -/
theorem run_invariant (P : State → Prop)
    (hstep : ∀ s e s1, P s → step s e = some s1 → P s1) :
    ∀ (tr : List Event) (s0 s : State), P s0 → run s0 tr = some s → P s := by
  intro tr
  induction tr with
  | nil =>
    intro s0 s h0 h
    simp [run] at h
    exact h ▸ h0
  | cons e es ih =>
    intro s0 s h0 h
    simp only [run] at h
    cases hs : step s0 e with
    | none => simp [hs] at h
    | some s1 =>
      simp only [hs, Option.bind] at h
      exact ih s1 s (hstep s0 e s1 h0 hs) h

theorem ShutdownInv_init (p : Process) : ShutdownInv (init p) := by
  constructor <;> simp [init]

theorem ShutdownInv_step (s : State) (e : Event) (s1 : State)
    (hI : ShutdownInv s) (h : step s e = some s1) : ShutdownInv s1 := by
  have hx := step_alive s s1 e h
  obtain ⟨h1, h2, h3, h4, h5⟩ := hI
  unfold step at h
  simp only [hx, Option.isSome_none, Bool.false_eq_true, if_false] at h
  cases e with
  | main =>
    simp only [stepMain] at h
    split at h <;> (try split at h) <;> simp at h <;> subst h <;>
      constructor <;> simp_all [State.logLine, State.Fatalf]
  | serve =>
    simp only [stepServe] at h
    split at h <;> (try split at h) <;> simp at h <;> subst h <;>
      constructor <;> simp_all [State.logLine, State.Fatalf]
  | bind failure =>
    simp only at h
    split at h <;> (try split at h) <;> simp at h <;> subst h <;>
      constructor <;> simp_all
  | signal sig =>
    simp only at h
    split at h <;> (try split at h) <;> simp at h <;> subst h <;>
      constructor <;> simp_all
  | accept =>
    simp only at h
    split at h
    · simp at h
      subst h
      constructor <;> simp_all
    · cases h
  | handlerDone =>
    simp only at h
    split at h
    · simp at h
      subst h
      constructor <;> simp_all
    · cases h
  | deadline =>
    simp only at h
    split at h
    · simp at h
      subst h
      constructor <;> simp_all
    · cases h
  | pollTimer =>
    simp only at h
    split at h
    · simp at h
      subst h
      constructor <;> simp_all
    · cases h

theorem serve_error_step (s : State) (e : Event) (s1 : State)
    (hI : s.serve ≠ ServePc.checkErr none ∧ s.serve ≠ ServePc.done)
    (h : step s e = some s1) :
    s1.serve ≠ ServePc.checkErr none ∧ s1.serve ≠ ServePc.done := by
  have hx := step_alive s s1 e h
  obtain ⟨h1, h2⟩ := hI
  unfold step at h
  simp only [hx, Option.isSome_none, Bool.false_eq_true, if_false] at h
  cases e with
  | main =>
    simp only [stepMain] at h
    split at h <;> (try split at h) <;> simp at h <;> subst h <;>
      simp_all [State.logLine, State.Fatalf]
  | serve =>
    simp only [stepServe] at h
    split at h <;> (try split at h) <;> simp at h <;> subst h <;>
      simp_all [State.logLine, State.Fatalf]
  | bind failure =>
    simp only at h
    split at h <;> (try split at h) <;> simp at h <;> subst h <;> simp_all
  | signal sig =>
    simp only at h
    split at h <;> (try split at h) <;> simp at h <;> subst h <;> simp_all
  | accept =>
    simp only at h
    split at h
    · simp at h
      subst h
      simp_all
    · cases h
  | handlerDone =>
    simp only at h
    split at h
    · simp at h
      subst h
      simp_all
    · cases h
  | deadline =>
    simp only at h
    split at h
    · simp at h
      subst h
      simp_all
    · cases h
  | pollTimer =>
    simp only at h
    split at h
    · simp at h
      subst h
      simp_all
    · cases h

theorem SignalInv_init (p : Process) : SignalInv (init p) := by
  constructor <;> simp [init, MainPc.calledShutdown, MainPc.afterReceive]

theorem SignalInv_step (s : State) (e : Event) (s1 : State)
    (hI : SignalInv s) (h : step s e = some s1) : SignalInv s1 := by
  have hx := step_alive s s1 e h
  obtain ⟨h1, h2, h3, h4, h5, h6, h7⟩ := hI
  unfold step at h
  simp only [hx, Option.isSome_none, Bool.false_eq_true, if_false] at h
  cases e with
  | main =>
    simp only [stepMain] at h
    split at h <;> (try split at h) <;> simp at h <;> subst h <;>
      constructor <;>
      first
        | assumption
        | simp_all [State.logLine, State.Fatalf, MainPc.calledShutdown, MainPc.afterReceive,
            shutdownTimeout]
  | serve =>
    simp only [stepServe] at h
    split at h <;> (try split at h) <;> simp at h <;> subst h <;>
      constructor <;> assumption
  | bind failure =>
    simp only at h
    split at h <;> (try split at h) <;> simp at h <;> subst h <;>
      constructor <;> assumption
  | signal sig =>
    simp only at h
    split at h
    · rename_i hsub
      have hsig : sig ∈ notifySignals := by
        rcases h1 with h1 | h1
        · rw [h1] at hsub; cases hsub
        · rw [h1] at hsub; exact hsub
      split at h <;> simp at h <;> subst h <;>
        constructor <;> first | assumption | simp_all
    · cases h
  | accept =>
    simp only at h
    split at h
    · simp at h
      subst h
      constructor <;> assumption
    · cases h
  | handlerDone =>
    simp only at h
    split at h
    · simp at h
      subst h
      constructor <;> assumption
    · cases h
  | deadline =>
    simp only at h
    split at h
    · simp at h
      subst h
      constructor <;> assumption
    · cases h
  | pollTimer =>
    simp only at h
    split at h
    · simp at h
      subst h
      constructor <;>
      first | assumption | simp_all [MainPc.calledShutdown, MainPc.afterReceive]
    · cases h

theorem phase_step (s : State) (e : Event) (s1 : State) (h : step s e = some s1) :
    (phase s).rank ≤ (phase s1).rank := by
  have hx := step_alive s s1 e h
  unfold step at h
  simp only [hx, Option.isSome_none, Bool.false_eq_true, if_false] at h
  have key : s.inShutdown = true → s1.inShutdown = true ∨ s1.exit.isSome = true := by
    cases e with
    | main =>
      simp only [stepMain] at h
      split at h <;> (try split at h) <;> simp at h <;> subst h <;>
        simp_all [State.logLine, State.Fatalf]
    | serve =>
      simp only [stepServe] at h
      split at h <;> (try split at h) <;> simp at h <;> subst h <;>
        simp_all [State.logLine, State.Fatalf]
    | bind failure =>
      simp only at h
      split at h <;> (try split at h) <;> simp at h <;> subst h <;> simp_all
    | signal sig =>
      simp only at h
      split at h <;> (try split at h) <;> simp at h <;> subst h <;> simp_all
    | accept =>
      simp only at h
      split at h
      · simp at h
        subst h
        simp_all
      · cases h
    | handlerDone =>
      simp only at h
      split at h
      · simp at h
        subst h
        simp_all
      · cases h
    | deadline =>
      simp only at h
      split at h
      · simp at h
        subst h
        simp_all
      · cases h
    | pollTimer =>
      simp only at h
      split at h
      · simp at h
        subst h
        simp_all
      · cases h
  unfold phase
  simp only [hx, Option.isSome_none, Bool.false_eq_true, if_false]
  by_cases hs : s.inShutdown = true
  · rcases key hs with h1 | h1
    · by_cases h2 : s1.exit.isSome = true <;> simp [hs, h1, h2, Phase.rank]
    · simp [hs, h1, Phase.rank]
  · simp [hs, Phase.rank]

theorem QuietInv_init (p : Process) : QuietInv (init p) := by
  constructor <;> simp [init, MainPc.afterReceive]

theorem QuietInv_step (s : State) (e : Event) (s1 : State)
    (hI : QuietInv s) (he : ∀ g, e ≠ Event.signal g) (h : step s e = some s1) :
    QuietInv s1 := by
  have hx := step_alive s s1 e h
  obtain ⟨h1, h2, h3, h4⟩ := hI
  unfold step at h
  simp only [hx, Option.isSome_none, Bool.false_eq_true, if_false] at h
  cases e with
  | main =>
    simp only [stepMain] at h
    split at h <;> (try split at h) <;> simp at h <;> (try subst h) <;>
      (try constructor) <;>
      simp_all [State.logLine, State.Fatalf, MainPc.afterReceive]
  | serve =>
    simp only [stepServe] at h
    split at h <;> (try split at h) <;> simp at h <;> subst h <;>
      constructor <;> simp_all [State.logLine, State.Fatalf]
  | bind failure =>
    simp only at h
    split at h <;> (try split at h) <;> simp at h <;> subst h <;>
      constructor <;> simp_all
  | signal sig => exact absurd rfl (he sig)
  | accept =>
    simp only at h
    split at h
    · simp at h
      subst h
      constructor <;> simp_all
    · cases h
  | handlerDone =>
    simp only at h
    split at h
    · simp at h
      subst h
      constructor <;> simp_all
    · cases h
  | deadline =>
    simp only at h
    split at h
    · simp at h
      subst h
      constructor <;> simp_all
    · cases h
  | pollTimer =>
    simp only at h
    split at h
    · simp at h
      subst h
      constructor <;>
      simp_all [MainPc.afterReceive]
    · cases h

theorem QuietInv_run :
    ∀ (tr : List Event) (s0 s : State), QuietInv s0 →
      (∀ g, Event.signal g ∉ tr) → run s0 tr = some s → QuietInv s := by
  intro tr
  induction tr with
  | nil =>
    intro s0 s h0 _ h
    simp [run] at h
    exact h ▸ h0
  | cons e es ih =>
    intro s0 s h0 hsig h
    simp only [run] at h
    cases hs : step s0 e with
    | none => simp [hs] at h
    | some s1 =>
      simp only [hs, Option.bind] at h
      exact ih s1 s
        (QuietInv_step s0 e s1 h0 (fun g heq => hsig g (by simp [heq])) hs)
        (fun g hg => hsig g (List.mem_cons_of_mem _ hg)) h

theorem bindFailed_step (cause : String) (s : State) (e : Event) (s1 : State)
    (hI : QuietInv s) (hf : bindFailed cause s) (h : step s e = some s1) :
    bindFailed cause s1 := by
  have hx := step_alive s s1 e h
  obtain ⟨h1, h2, h3, h4⟩ := hI
  rcases hf with ⟨_, hs⟩ | ⟨hx1, _⟩
  · unfold step at h
    simp only [hx, Option.isSome_none, Bool.false_eq_true, if_false] at h
    unfold bindFailed
    cases e with
    | main =>
      simp only [stepMain] at h
      split at h <;> (try split at h) <;> simp at h <;> (try subst h) <;>
        simp_all [State.logLine, State.Fatalf, MainPc.afterReceive]
    | serve =>
      simp only [stepServe, hs] at h
      simp at h
      subst h
      simp [State.Fatalf]
    | bind failure =>
      simp only at h
      split at h <;> (try split at h) <;> simp at h <;> subst h <;> simp_all
    | signal sig =>
      simp only at h
      split at h <;> (try split at h) <;> simp at h <;> subst h <;> simp_all
    | accept =>
      simp only at h
      split at h
      · simp at h
        subst h
        simp_all
      · cases h
    | handlerDone =>
      simp only at h
      split at h
      · simp at h
        subst h
        simp_all
      · cases h
    | deadline =>
      simp only at h
      split at h
      · simp at h
        subst h
        simp_all
      · cases h
    | pollTimer =>
      simp only at h
      split at h
      · simp at h
        subst h
        simp_all
      · cases h
  · rw [hx] at hx1; cases hx1

theorem bindFailed_of_bind (cause : String) (s s1 : State)
    (h : step s (Event.bind (some cause)) = some s1) : bindFailed cause s1 := by
  have hx := step_alive s s1 _ h
  unfold step at h
  simp only [hx, Option.isSome_none, Bool.false_eq_true, if_false] at h
  split at h
  · simp at h
    subst h
    exact Or.inl ⟨rfl, rfl⟩
  · cases h

theorem bindFailed_run (cause : String) :
    ∀ (tr : List Event) (s0 s : State), QuietInv s0 → bindFailed cause s0 →
      (∀ g, Event.signal g ∉ tr) → run s0 tr = some s → bindFailed cause s := by
  intro tr
  induction tr with
  | nil =>
    intro s0 s _ hf _ h
    simp [run] at h
    exact h ▸ hf
  | cons e es ih =>
    intro s0 s hq hf hsig h
    simp only [run] at h
    cases hs : step s0 e with
    | none => simp [hs] at h
    | some s1 =>
      simp only [hs, Option.bind] at h
      have he : ∀ g, e ≠ Event.signal g := fun g heq => hsig g (by simp [heq])
      exact ih s1 s (QuietInv_step s0 e s1 hq he hs) (bindFailed_step cause s0 e s1 hq hf hs)
        (fun g hg => hsig g (List.mem_cons_of_mem _ hg)) h

theorem bindFailed_of_mem (cause : String) :
    ∀ (tr : List Event) (s0 s : State), QuietInv s0 →
      (∀ g, Event.signal g ∉ tr) → Event.bind (some cause) ∈ tr →
      run s0 tr = some s → bindFailed cause s := by
  intro tr
  induction tr with
  | nil =>
    intro s0 s _ _ hb _
    cases hb
  | cons e es ih =>
    intro s0 s hq hsig hb h
    simp only [run] at h
    cases hs : step s0 e with
    | none => simp [hs] at h
    | some s1 =>
      simp only [hs, Option.bind] at h
      have he : ∀ g, e ≠ Event.signal g := fun g heq => hsig g (by simp [heq])
      have hq1 := QuietInv_step s0 e s1 hq he hs
      have hsig1 : ∀ g, Event.signal g ∉ es := fun g hg => hsig g (List.mem_cons_of_mem _ hg)
      by_cases hhead : e = Event.bind (some cause)
      · subst hhead
        exact bindFailed_run cause es s1 s hq1 (bindFailed_of_bind cause s0 s1 hs) hsig1 h
      · have hb1 : Event.bind (some cause) ∈ es := by
          rcases List.mem_cons.mp hb with hb | hb
          · exact absurd hb.symm hhead
          · exact hb
        exact ih s1 s hq1 hsig1 hb1 h

/-! ## The lifecycle claims -/

/-- The two fatal lines as they appear in the log, and the final line of a
shutdown that main completes. -/
theorem log_texts :
    (LogLine.serverError Err.ErrServerClosed).text = "Server error: http: Server closed" ∧
    (LogLine.shutdownFailed Err.DeadlineExceeded).text =
      "Graceful shutdown failed: context deadline exceeded" ∧
    LogLine.shutdownComplete.text = "Graceful shutdown complete." := by
  decide

/-- In every execution, when `ListenAndServe` has returned, it has returned an
error: the goroutine never gets past line 41 without running line 42. -/
theorem ListenAndServe_returns_error (p : Process) (tr : List Event) (s : State)
    (hrun : run (init p) tr = some s) :
    s.serve ≠ ServePc.checkErr none ∧ s.serve ≠ ServePc.done :=
  run_invariant (fun s => s.serve ≠ ServePc.checkErr none ∧ s.serve ≠ ServePc.done)
    serve_error_step tr (init p) s (by simp [init]) hrun

/-- C4 at the execution `shutdownThenFatal`: the listener is bound, SIGTERM is
received, `Shutdown` returns nil before its deadline, and the process still
exits with code 1, through the `log.Fatalf` of line 42, which the serving
goroutine runs on the `ErrServerClosed` that `ListenAndServe` returns. -/
theorem clean_shutdown_exits_1 :
    Event.bind none ∈ shutdownThenFatal ∧
    (run (init bare) shutdownThenFatal).map
        (fun s => (s.received, s.shutdownReturned, s.ctxDone, s.exit, s.log)) =
      some (some Signal.SIGTERM, some none, false, some 1,
        [LogLine.serverRunning, LogLine.signalReceived,
          LogLine.serverError Err.ErrServerClosed]) :=
  ⟨by decide, rfl⟩

/-- The same shutdown ends with exit code 0 when the main flow runs lines
60-61 before the serving goroutine runs line 42. -/
theorem clean_shutdown_exits_0 :
    (run (init bare) shutdownThenReturn).map (fun s => (s.shutdownReturned, s.exit, s.log)) =
      some (some none, some 0,
        [LogLine.serverRunning, LogLine.signalReceived, LogLine.shutdownComplete]) :=
  rfl

/-- What lines 56-58 do achieve.  In every execution, once `server.Shutdown`
has returned a non-nil error, the line "Graceful shutdown complete." is not
logged and the exit code is not 0; while the process is alive the next
statement of the main flow is the `log.Fatalf` of line 57; and a process
that has exited has exit code 1 and has logged a fatal line, that of line 57
or that of line 42. -/
theorem main_flow_after_shutdown_error (p : Process) (tr : List Event) (s : State) (e : Err)
    (hrun : run (init p) tr = some s) (hret : s.shutdownReturned = some (some e)) :
    LogLine.shutdownComplete ∉ s.log ∧
    s.exit ≠ some 0 ∧
    (s.exit = none →
      ∃ s1, step s Event.main = some s1 ∧ s1.exit = some 1 ∧
        s1.log = s.log ++ [LogLine.shutdownFailed e]) ∧
    (∀ c, s.exit = some c →
      c = 1 ∧ (LogLine.shutdownFailed e ∈ s.log ∨ ∃ e1, LogLine.serverError e1 ∈ s.log)) := by
  have hI : ShutdownInv s :=
    run_invariant ShutdownInv ShutdownInv_step tr (init p) s (ShutdownInv_init p) hrun
  have hm : s.main = MainPc.checkErr (some e) := hI.returned e hret
  have h0 : s.exit ≠ some 0 := by
    intro h
    have := hI.zero h
    rw [hm] at this
    cases this
  refine ⟨?_, h0, ?_, ?_⟩
  · intro h
    have := hI.complete h
    rw [hm] at this
    cases this
  · intro hx
    refine ⟨s.Fatalf (LogLine.shutdownFailed e), ?_, rfl, rfl⟩
    simp [step, hx, stepMain, hm]
  · intro c hc
    have hc1 : c = 1 := by
      rcases hI.code c hc with h | h
      · exact absurd (h ▸ hc) h0
      · exact h
    refine ⟨hc1, ?_⟩
    rcases hI.fatal (hc1 ▸ hc) with ⟨e1, he1, hl⟩ | h
    · rw [hm] at he1
      injection he1 with he1
      injection he1 with he1
      exact Or.inl (he1 ▸ hl)
    · exact Or.inr h

/-- C5 at a request that outlives the grace period.  In the execution
`shutdownTimesOut`, `server.Shutdown` returns the deadline error, but the
process exits through the `log.Fatalf` of line 42, which the serving
goroutine runs on `ErrServerClosed`: the exit code is 1 and the shutdown
failure is never logged.  In the execution `requestOutlivesGrace` line 42
runs as soon as `Shutdown` has closed the listener: the process exits with
code 1 before the deadline, `Shutdown` never returns, and again the shutdown
failure is never logged. -/
theorem shutdown_failure_is_not_logged :
    (run (init bare) shutdownTimesOut).map
        (fun s => (s.shutdownReturned, s.active, s.exit, s.log)) =
      some (some (some Err.DeadlineExceeded), 1, some 1,
        [LogLine.serverRunning, LogLine.signalReceived,
          LogLine.serverError Err.ErrServerClosed]) ∧
    (run (init bare) requestOutlivesGrace).map
        (fun s => (s.shutdownReturned, s.ctxDone, s.active, s.exit, s.log)) =
      some (none, false, 1, some 1,
        [LogLine.serverRunning, LogLine.signalReceived,
          LogLine.serverError Err.ErrServerClosed]) ∧
    LogLine.shutdownFailed Err.DeadlineExceeded ∉
      [LogLine.serverRunning, LogLine.signalReceived, LogLine.serverError Err.ErrServerClosed] :=
  ⟨rfl, rfl, by decide⟩

/-- C6, as stated, fails at the execution `bindFailsThenSignal`: the bind
fails, but SIGTERM arrives before the serving goroutine runs line 42 and the
main flow shuts down first; the process exits with code 0 and the cause is
never logged. -/
theorem bind_failure_can_exit_0 :
    Event.bind (some "listen tcp :8080: bind: address already in use") ∈ bindFailsThenSignal ∧
    (run (init bare) bindFailsThenSignal).map (fun s => (s.serve, s.exit, s.log)) =
      some (ServePc.checkErr (some (Err.listen "listen tcp :8080: bind: address already in use")),
        some 0,
        [LogLine.serverRunning, LogLine.signalReceived, LogLine.shutdownComplete]) :=
  ⟨by decide, rfl⟩

/-- C6, amended: in every execution in which the bind fails and no signal is
delivered, the serving goroutine goes straight to the `log.Fatalf` of line
42: either the process has already exited with code 1 and has logged the
cause, or it is alive and the goroutine's next statement can run at once,
logs the cause and exits with code 1.  The main flow has received no signal
and has not called `Shutdown`. -/
theorem bind_failure_is_fatal (p : Process) (tr : List Event) (s : State) (cause : String)
    (hrun : run (init p) tr = some s) (hbind : Event.bind (some cause) ∈ tr)
    (hquiet : ∀ g, Event.signal g ∉ tr) :
    ((s.exit = some 1 ∧ LogLine.serverError (Err.listen cause) ∈ s.log) ∨
      (s.exit = none ∧
        ∃ s1, step s Event.serve = some s1 ∧ s1.exit = some 1 ∧
          s1.log = s.log ++ [LogLine.serverError (Err.listen cause)])) ∧
    s.main.afterReceive = false ∧ s.inShutdown = false := by
  have hq : QuietInv s := QuietInv_run tr (init p) s (QuietInv_init p) hquiet hrun
  refine ⟨?_, hq.main, hq.shut⟩
  rcases bindFailed_of_mem cause tr (init p) s (QuietInv_init p) hquiet hbind hrun with
    ⟨hx, hs⟩ | h
  · refine Or.inr ⟨hx, s.Fatalf (LogLine.serverError (Err.listen cause)), ?_, rfl, rfl⟩
    simp [step, hx, stepServe, hs]
  · exact Or.inl h

theorem bind_failure_is_fatal_witness :
    run (init bare) bindFails = some bindFailedExit ∧
    Event.bind (some "listen tcp :8080: bind: address already in use") ∈ bindFails ∧
    (∀ g, Event.signal g ∉ bindFails) ∧
    ((bindFailedExit.exit = some 1 ∧
        LogLine.serverError (Err.listen "listen tcp :8080: bind: address already in use") ∈
          bindFailedExit.log) ∨
      (bindFailedExit.exit = none ∧
        ∃ s1, step bindFailedExit Event.serve = some s1 ∧ s1.exit = some 1 ∧
          s1.log = bindFailedExit.log ++
            [LogLine.serverError (Err.listen "listen tcp :8080: bind: address already in use")])) ∧
    bindFailedExit.main.afterReceive = false ∧ bindFailedExit.inShutdown = false :=
  ⟨by decide, by decide, by intro g; simp [bindFails],
    bind_failure_is_fatal bare bindFails bindFailedExit
      "listen tcp :8080: bind: address already in use" (by decide) (by decide)
      (by intro g; simp [bindFails])⟩

/-- C7: whatever the arguments and the environment of the process, the server
value built by `main` has the address `:8080`, the read timeout 5 s, the
write timeout 10 s and the idle timeout 60 s, and the context handed to
`Shutdown` has the timeout 5 s. -/
theorem listener_configuration (p : Process) :
    newServer p =
      { Addr := ":8080", Handler := mux, ReadTimeout := 5 * Second,
        WriteTimeout := 10 * Second, IdleTimeout := 60 * Second } ∧
    shutdownTimeout p = 5 * Second ∧
    (stepMain { init p with main := MainPc.callShutdown }).map (fun s => s.ctx) =
      some (some (5 * Second)) ∧
    Second = 1000000000 :=
  ⟨rfl, rfl, rfl, rfl⟩

/-- C9 at the execution `signalDuringRequest`: SIGINT arrives while a request
is in flight and the deadline has not passed, yet the process exits with code
1 through line 42 while the request is still active; its response is never
completed. -/
theorem request_in_flight_is_cut_off :
    (run (init bare) signalDuringRequest).map
        (fun s => (s.received, s.ctxDone, s.active, s.completed, s.exit, s.log)) =
      some (some Signal.SIGINT, false, 1, 0, some 1,
        [LogLine.serverRunning, LogLine.signalReceived,
          LogLine.serverError Err.ErrServerClosed]) :=
  rfl

theorem mem_notifySignals (g : Signal) :
    g ∈ notifySignals ↔ g = Signal.SIGINT ∨ g = Signal.SIGTERM := by
  simp [notifySignals, Interrupt]

theorem signal_starts_shutdown (s : State) (g : Signal) (hsub : s.subscribed = notifySignals)
    (hg : g ∈ notifySignals) (hm : s.main = MainPc.receive) (hx : s.exit = none) :
    ∃ s1, run s [Event.signal g, Event.main, Event.main, Event.main] = some s1 ∧
      phase s1 = Phase.ShuttingDown ∧ s1.ctx = some (5 * Second) ∧
      s1.received = some (s.stop.getD g) := by
  have hg1 : g ∈ s.subscribed := hsub ▸ hg
  cases hstop : s.stop with
  | none =>
    simp [run, step, stepMain, hx, hg1, hstop, hm, State.logLine, phase, shutdownTimeout]
  | some g0 =>
    simp [run, step, stepMain, hx, hg1, hstop, hm, State.logLine, phase, shutdownTimeout]

/-- C8: in every execution,

* the signals `main` subscribes to are exactly SIGINT and SIGTERM, and from
  line 50 on the process is subscribed to these two;
* when `server.Shutdown` is about to be called or has been called, the main
  flow has received SIGINT or SIGTERM;
* when the main flow waits at line 50 and SIGINT or SIGTERM is delivered, its
  next three statements receive a signal, log, and call `Shutdown` with the
  5 s deadline, which puts the process into `ShuttingDown`;
* no event moves the process back: from `Running` to `ShuttingDown` to
  `Terminated` the phase never decreases. -/
theorem lifecycle_state_machine (p : Process) (tr : List Event) (s : State)
    (hrun : run (init p) tr = some s) :
    (∀ g, g ∈ notifySignals ↔ g = Signal.SIGINT ∨ g = Signal.SIGTERM) ∧
    (∀ g, g ∈ s.subscribed → g = Signal.SIGINT ∨ g = Signal.SIGTERM) ∧
    (s.main = MainPc.receive ∨ s.main.afterReceive = true → s.subscribed = notifySignals) ∧
    (s.main = MainPc.callShutdown ∨ s.inShutdown = true →
      ∃ g, s.received = some g ∧ (g = Signal.SIGINT ∨ g = Signal.SIGTERM)) ∧
    (∀ g, g = Signal.SIGINT ∨ g = Signal.SIGTERM → s.main = MainPc.receive → s.exit = none →
      ∃ s1, run s [Event.signal g, Event.main, Event.main, Event.main] = some s1 ∧
        phase s1 = Phase.ShuttingDown ∧ s1.ctx = some (5 * Second) ∧
        s1.received = some (s.stop.getD g)) ∧
    (∀ e s1, step s e = some s1 → (phase s).rank ≤ (phase s1).rank) := by
  have hI : SignalInv s :=
    run_invariant SignalInv SignalInv_step tr (init p) s (SignalInv_init p) hrun
  refine ⟨mem_notifySignals, ?_, ?_, ?_, ?_, fun e s1 h => phase_step s e s1 h⟩
  · intro g hg
    rcases hI.subs with h | h
    · rw [h] at hg; cases hg
    · rw [h] at hg; exact (mem_notifySignals g).mp hg
  · intro h
    apply hI.notified
    · rcases h with h | h
      · rw [h]; simp
      · intro h1; rw [h1] at h; cases h
    · rcases h with h | h
      · rw [h]; simp
      · intro h1; rw [h1] at h; cases h
  · intro h
    have ha : s.main.afterReceive = true := by
      rcases h with h | h
      · rw [h]; rfl
      · have h2 := hI.shut
        rw [h] at h2
        revert h2
        cases s.main <;> simp [MainPc.calledShutdown, MainPc.afterReceive]
    have hr := hI.after ha
    cases hrec : s.received with
    | none => simp [hrec] at hr
    | some g => exact ⟨g, rfl, (mem_notifySignals g).mp (hI.received g hrec)⟩
  · intro g hg hm hx
    have hsub : s.subscribed = notifySignals :=
      hI.notified (by rw [hm]; simp) (by rw [hm]; simp)
    exact signal_starts_shutdown s g hsub ((mem_notifySignals g).mpr hg) hm hx

theorem lifecycle_state_machine_witness :
    run (init bare) startUp = some started ∧
    (∀ g, g ∈ notifySignals ↔ g = Signal.SIGINT ∨ g = Signal.SIGTERM) ∧
    (∀ g, g ∈ started.subscribed → g = Signal.SIGINT ∨ g = Signal.SIGTERM) ∧
    (started.main = MainPc.receive ∨ started.main.afterReceive = true →
      started.subscribed = notifySignals) ∧
    (started.main = MainPc.callShutdown ∨ started.inShutdown = true →
      ∃ g, started.received = some g ∧ (g = Signal.SIGINT ∨ g = Signal.SIGTERM)) ∧
    (∀ g, g = Signal.SIGINT ∨ g = Signal.SIGTERM → started.main = MainPc.receive →
      started.exit = none →
      ∃ s1, run started [Event.signal g, Event.main, Event.main, Event.main] = some s1 ∧
        phase s1 = Phase.ShuttingDown ∧ s1.ctx = some (5 * Second) ∧
        s1.received = some (started.stop.getD g)) ∧
    (∀ e s1, step started e = some s1 → (phase started).rank ≤ (phase s1).rank) :=
  ⟨by decide, lifecycle_state_machine bare startUp started (by decide)⟩

end Main
